import Mathlib

/-!
# prometheus-ethtool-exporter: counter normalisation and scrape cycle

A shallow embedding of `collector/drivers/drivers.go`, `collector/drivers/mlx5.go`
and `collector/collector.go`.

Modelling conventions.

* `uint64` values are natural numbers; every addition the source performs on
  them is followed by `% 2 ^ 64`.
* A Go `map[K]V` is an association list without duplicate keys.  `mapGet` is
  the two-valued lookup `v, exists := m[k]`, `mapSet` is `m[k] = v`.
* Go leaves the order in which `range` visits a map unspecified.  Every
  `range` statement over a map takes the visiting order as a parameter
  (`RangeOrder`): a function sending the entries of the map to the sequence in
  which this statement visits them.  The results below hold for every choice
  of these functions that permutes its argument.
* Go `int` is the 64-bit signed integer of the platforms the exporter runs
  on; values of type `int` are modelled by `Int`.
* Go strings are modelled by `String`; counter names and driver names are
  text, read through their list of characters.
* A call of `Collect` runs from its first statement to its last without another
  call interleaved; a panic of `MustNewConstMetric` ends the call.
* The samples sent on the channel are listed in the order they are sent; the
  value of a sample is the `uint64` the collector hands to `float64(...)`.
-/

namespace EthtoolExporter

/-! ## Go maps -/

/-- Lookup `v, exists := m[k]` in a map given by its entries. -/
def mapGet {κ ν : Type} [DecidableEq κ] : List (κ × ν) → κ → Option ν
  | [], _ => none
  | (k', v) :: rest, k => if k = k' then some v else mapGet rest k

/-- Assignment `m[k] = v`: overwrite the entry of `k` when there is one, add one otherwise. -/
def mapSet {κ ν : Type} [DecidableEq κ] : List (κ × ν) → κ → ν → List (κ × ν)
  | [], k, v => [(k, v)]
  | (k', v') :: rest, k, v => if k = k' then (k', v) :: rest else (k', v') :: mapSet rest k v

/-- Keys of a map. -/
def mapKeys {κ ν : Type} (m : List (κ × ν)) : List κ := m.map Prod.fst

/-- The value stored under `k`, or the zero value of `uint64` when `k` is absent. -/
def valOf (m : List (String × Nat)) (k : String) : Nat := (mapGet m k).getD 0

/-- Well-formed raw counter snapshot `map[string]uint64`: no key occurs twice and
every value fits in 64 bits. -/
def RawOK (m : List (String × Nat)) : Prop :=
  (mapKeys m).Nodup ∧ ∀ e ∈ m, e.2 < 2 ^ 64

/-- The order in which one `range` statement visits the entries of a map. -/
abbrev RangeOrder (α : Type) := List α → List α

/-- A visiting order is admissible when it visits every entry exactly once. -/
def RangeOrder.Valid {α : Type} (f : RangeOrder α) : Prop := ∀ l, (f l).Perm l

/-! ## Strings and `strconv` -/

/-- ASCII decimal digit, the class `\d` of Go regular expressions. -/
def isDigit (c : Char) : Bool := decide (48 ≤ c.toNat) && decide (c.toNat ≤ 57)

/-- The character of a decimal digit. -/
def digitChar (d : Nat) : Char := Char.ofNat (48 + d)

/-- The value of a decimal digit character. -/
def digitVal (c : Char) : Nat := c.toNat - 48

/-- Decimal digits of `n`, most significant first, without leading zeros. -/
def decDigits : Nat → Nat → List Char
  | 0, _ => []
  | fuel + 1, n => if n < 10 then [digitChar n] else decDigits fuel (n / 10) ++ [digitChar (n % 10)]

/-- The number a sequence of decimal digits denotes. -/
def parseDec (cs : List Char) : Nat := cs.foldl (fun acc c => acc * 10 + digitVal c) 0

/-- Go `strconv.Itoa`: decimal rendering of an `int`. -/
def Itoa (i : Int) : String :=
  match i with
  | Int.ofNat n => String.mk (decDigits (n + 1) n)
  | Int.negSucc n => String.mk ('-' :: decDigits (n + 2) (n + 1))

/-- Go `strconv.Atoi`: an optional sign followed by at least one decimal digit,
denoting a value of the 64-bit `int` range; `none` is the error result. -/
def Atoi (s : String) : Option Int :=
  let parseBody (neg : Bool) (body : List Char) : Option Int :=
    if body = [] ∨ body.all isDigit = false then none
    else if neg then (if parseDec body ≤ 2 ^ 63 then some (-(parseDec body : Int)) else none)
    else (if parseDec body < 2 ^ 63 then some (parseDec body : Int) else none)
  match s.toList with
  | '-' :: body => parseBody true body
  | '+' :: body => parseBody false body
  | body => parseBody false body

/-- Go `strings.Split(s, "_")[0]`: the part of `s` before its first underscore. -/
def splitHead (s : String) : String := String.mk (s.toList.takeWhile (fun c => c != '_'))

/-- Go `strings.TrimPrefix(s, p)`. -/
def TrimPrefix (s p : String) : String :=
  if p.toList.isPrefixOf s.toList then String.mk (s.toList.drop p.toList.length) else s

/-! ## `drivers.go`: data model -/

/-- Driver identifier with a mapping table. -/
def DriverMLX5 : String := "mlx5_core"

/-- Basic metrics every NIC should provide. -/
@[ext]
structure BasicStats where
  RxPackets : Nat
  RxBytes : Nat
  RxDrops : Nat
  TxPackets : Nat
  TxBytes : Nat
  TxDrops : Nat
deriving DecidableEq, Repr

/-- Physical layer statistics. -/
@[ext]
structure PhyStats where
  RxPackets : Nat
  RxBytes : Nat
  TxPackets : Nat
  TxBytes : Nat
  RxDiscarded : Nat
  TxDiscarded : Nat
  RxPauseCtrl : Nat
  TxPauseCtrl : Nat
deriving DecidableEq, Repr

/-- Per-queue statistics. -/
@[ext]
structure QueueStats where
  QueueIndex : Int
  RxPackets : Nat
  RxBytes : Nat
  TxPackets : Nat
  TxBytes : Nat
  RxDrops : Nat
  TxDrops : Nat
deriving DecidableEq, Repr

/-- Basic and driver-specific metrics of one interface; `Physical` is a pointer
that may be nil. -/
structure ProcessedStats where
  Basic : BasicStats
  Physical : Option PhyStats
  PerQueue : List QueueStats
  DriverSpecific : List (String × Nat)
deriving DecidableEq, Repr

/-- Information about a network interface. -/
structure NICInfo where
  Name : String
  Driver : String
  DriverType : String
  Version : String
deriving DecidableEq, Repr

/-! ## `mlx5.go`: mapping tables -/

def CounterRxPackets : String := "rx_packets"
def CounterRxBytes : String := "rx_bytes"
def CounterTxPackets : String := "tx_packets"
def CounterTxBytes : String := "tx_bytes"
def CounterRxDrops : String := "rx_drops"
def CounterTxDrops : String := "tx_drops"
def CounterRxDiscards : String := "rx_discards"
def CounterTxDiscards : String := "tx_discards"
def CounterRxPauseCtrl : String := "rx_pause_ctrl"
def CounterTxPauseCtrl : String := "tx_pause_ctrl"

/-- Source metrics contributing to each basic metric. -/
def MLX5MetricMapping : List (String × List String) :=
  [ (CounterRxPackets, ["rx_packets"]),
    (CounterRxBytes, ["rx_bytes"]),
    (CounterTxPackets, ["tx_packets"]),
    (CounterTxBytes, ["tx_bytes"]),
    (CounterRxDrops, ["rx_out_of_buffer", "rx_buff_alloc_err", "rx_wqe_err"]),
    (CounterTxDrops, ["tx_cqe_err"]) ]

/-- Source metrics contributing to each physical metric. -/
def MLX5PhyMetricMapping : List (String × List String) :=
  [ (CounterRxPackets, ["rx_packets_phy"]),
    (CounterRxBytes, ["rx_bytes_phy"]),
    (CounterTxPackets, ["tx_packets_phy"]),
    (CounterTxBytes, ["tx_bytes_phy"]),
    (CounterRxDiscards, ["rx_discards_phy"]),
    (CounterTxDiscards, ["tx_discards_phy"]),
    (CounterRxPauseCtrl, ["rx_pause_ctrl_phy"]),
    (CounterTxPauseCtrl, ["tx_pause_ctrl_phy"]) ]

/-- Source metrics contributing to each queue metric. -/
def MLX5QueueMetricMapping : List (String × List String) :=
  [ (CounterRxPackets, ["rx_packets"]),
    (CounterRxBytes, ["rx_bytes"]),
    (CounterTxPackets, ["tx_packets"]),
    (CounterTxBytes, ["tx_bytes"]),
    (CounterRxDrops, ["rx_wqe_err", "rx_buff_alloc_err"]),
    (CounterTxDrops, ["tx_cqe_err"]) ]

/-- The digits and the underscore of the queue pattern, after the direction token:
the longest run of digits, which must be non-empty and followed by `_`. -/
def matchDigits (direction : String) (rest : List Char) : Option (String × String) :=
  match rest.takeWhile isDigit, rest.dropWhile isDigit with
  | d :: ds, '_' :: _ => some (direction, String.mk (d :: ds))
  | _, _ => none

/-- The regular expression `^(rx|tx)(\d+)_` applied with `FindStringSubmatch`:
the two capture groups when the name matches, `none` (nil) otherwise. -/
def mlx5QueuePattern (name : String) : Option (String × String) :=
  match name.toList with
  | 'r' :: 'x' :: rest => matchDigits "rx" rest
  | 't' :: 'x' :: rest => matchDigits "tx" rest
  | _ => none

/-! ## Visiting orders of the `range` statements of `mlx5.go` -/

/-- The visiting orders of the `range` statements executed by one call of
`ProcessDriverStats`.  The statement over `MLX5QueueMetricMapping` runs once for
every raw key that matches the queue pattern; its order may differ from run
to run and is indexed by that key. -/
structure DriverSched where
  basicTable : RangeOrder (String × List String)
  phyTable : RangeOrder (String × List String)
  queueRaw : RangeOrder (String × Nat)
  queueTable : String → RangeOrder (String × List String)
  queueMap : RangeOrder (Int × QueueStats)
  rawCopy : RangeOrder (String × Nat)

/-- Every `range` statement visits every entry exactly once. -/
structure DriverSched.Valid (s : DriverSched) : Prop where
  basicTable : s.basicTable.Valid
  phyTable : s.phyTable.Valid
  queueRaw : s.queueRaw.Valid
  queueTable : ∀ name, (s.queueTable name).Valid
  queueMap : s.queueMap.Valid
  rawCopy : s.rawCopy.Valid

/-- The schedule that visits every map in the order its entries are listed. -/
def DriverSched.listed : DriverSched :=
  { basicTable := id, phyTable := id, queueRaw := id, queueTable := fun _ => id,
    queueMap := id, rawCopy := id }

/-- The schedule that visits every map in the reverse of the listed order. -/
def DriverSched.reversed : DriverSched :=
  { basicTable := List.reverse, phyTable := List.reverse, queueRaw := List.reverse,
    queueTable := fun _ => List.reverse, queueMap := List.reverse, rawCopy := List.reverse }

/-! ## `mlx5.go`: basic and physical statistics -/

/-- The inner loop of `processMLX5BasicStats` and `processMLX5PhyStats`:
`total += value` for every source metric that exists in the snapshot. -/
def sumSources (rawStats : List (String × Nat)) (sourceMetrics : List String) : Nat :=
  sourceMetrics.foldl
    (fun total sourceMetric =>
      match mapGet rawStats sourceMetric with
      | some value => (total + value) % 2 ^ 64
      | none => total)
    0

/-- The `switch basicMetric` of `processMLX5BasicStats`. -/
def assignBasic (basicMetric : String) (total : Nat) (stats : BasicStats) : BasicStats :=
  if basicMetric = CounterRxPackets then { stats with RxPackets := total }
  else if basicMetric = CounterRxBytes then { stats with RxBytes := total }
  else if basicMetric = CounterTxPackets then { stats with TxPackets := total }
  else if basicMetric = CounterTxBytes then { stats with TxBytes := total }
  else if basicMetric = CounterRxDrops then { stats with RxDrops := total }
  else if basicMetric = CounterTxDrops then { stats with TxDrops := total }
  else stats

/-- Source function `processMLX5BasicStats`; `order` is the visiting order of
`range MLX5MetricMapping`. -/
def processMLX5BasicStats (order : RangeOrder (String × List String))
    (rawStats : List (String × Nat)) (stats : BasicStats) : BasicStats :=
  (order MLX5MetricMapping).foldl
    (fun st entry => assignBasic entry.1 (sumSources rawStats entry.2) st)
    stats

/-- The `switch phyMetric` of `processMLX5PhyStats`. -/
def assignPhy (phyMetric : String) (total : Nat) (phyStats : PhyStats) : PhyStats :=
  if phyMetric = CounterRxPackets then { phyStats with RxPackets := total }
  else if phyMetric = CounterRxBytes then { phyStats with RxBytes := total }
  else if phyMetric = CounterTxPackets then { phyStats with TxPackets := total }
  else if phyMetric = CounterTxBytes then { phyStats with TxBytes := total }
  else if phyMetric = CounterRxDiscards then { phyStats with RxDiscarded := total }
  else if phyMetric = CounterTxDiscards then { phyStats with TxDiscarded := total }
  else if phyMetric = CounterRxPauseCtrl then { phyStats with RxPauseCtrl := total }
  else if phyMetric = CounterTxPauseCtrl then { phyStats with TxPauseCtrl := total }
  else phyStats

/-- Source function `processMLX5PhyStats`; `order` is the visiting order of
`range MLX5PhyMetricMapping`. -/
def processMLX5PhyStats (order : RangeOrder (String × List String))
    (metrics : List (String × Nat)) (phyStats : PhyStats) : PhyStats :=
  (order MLX5PhyMetricMapping).foldl
    (fun st entry => assignPhy entry.1 (sumSources metrics entry.2) st)
    phyStats

/-! ## `mlx5.go`: per-queue statistics -/

/-- The name a source metric has for queue `qIndex`:
`direction + strconv.Itoa(qIndex) + "_" + suffix`. -/
def expectedName (sourceMetric : String) (qIndex : Int) : String :=
  let direction := splitHead sourceMetric
  let suffix := TrimPrefix sourceMetric (direction ++ "_")
  direction ++ Itoa qIndex ++ "_" ++ suffix

/-- The `switch queueMetric` of `processMLX5QueueStats`: packet and byte fields
are assigned, drop fields are accumulated. -/
def assignQueue (queueMetric : String) (value : Nat) (qStats : QueueStats) : QueueStats :=
  if queueMetric = CounterRxPackets then { qStats with RxPackets := value }
  else if queueMetric = CounterRxBytes then { qStats with RxBytes := value }
  else if queueMetric = CounterTxPackets then { qStats with TxPackets := value }
  else if queueMetric = CounterTxBytes then { qStats with TxBytes := value }
  else if queueMetric = CounterRxDrops then
    { qStats with RxDrops := (qStats.RxDrops + value) % 2 ^ 64 }
  else if queueMetric = CounterTxDrops then
    { qStats with TxDrops := (qStats.TxDrops + value) % 2 ^ 64 }
  else qStats

/-- The loop over the source metrics of one queue metric. -/
def queueSourceLoop (name : String) (value : Nat) (qIndex : Int) (queueMetric : String)
    (sourceMetrics : List String) (qStats : QueueStats) : QueueStats :=
  sourceMetrics.foldl
    (fun q sourceMetric =>
      if name = expectedName sourceMetric qIndex then assignQueue queueMetric value q else q)
    qStats

/-- The loop `for queueMetric, sourceMetrics := range MLX5QueueMetricMapping`, with
the entries in visiting order. -/
def queueTableLoop (entries : List (String × List String)) (name : String) (value : Nat)
    (qIndex : Int) (qStats : QueueStats) : QueueStats :=
  entries.foldl (fun q entry => queueSourceLoop name value qIndex entry.1 entry.2 q) qStats

/-- The composite literal `&QueueStats{QueueIndex: qIndex}`: every counter is zero. -/
def newQueueStats (qIndex : Int) : QueueStats :=
  { QueueIndex := qIndex, RxPackets := 0, RxBytes := 0, TxPackets := 0, TxBytes := 0,
    RxDrops := 0, TxDrops := 0 }

/-- The body of the loop `for name, value := range metrics` of `processMLX5QueueStats`,
acting on `queueMap`. -/
def queueStep (s : DriverSched) (queueMap : List (Int × QueueStats)) (e : String × Nat) :
    List (Int × QueueStats) :=
  match mlx5QueuePattern e.1 with
  | none => queueMap
  | some groups =>
    match Atoi groups.2 with
    | none => queueMap
    | some qIndex =>
      let qStats : QueueStats :=
        match mapGet queueMap qIndex with
        | some q => q
        | none => newQueueStats qIndex
      mapSet queueMap qIndex
        (queueTableLoop (s.queueTable e.1 MLX5QueueMetricMapping) e.1 e.2 qIndex qStats)

/-- Source function `processMLX5QueueStats`. -/
def processMLX5QueueStats (s : DriverSched) (metrics : List (String × Nat)) : List QueueStats :=
  let queueMap := (s.queueRaw metrics).foldl (queueStep s) []
  (s.queueMap queueMap).map Prod.snd

/-! ## `mlx5.go` and `drivers.go`: dispatch -/

/-- Source function `processMLX5CustomStats`, whose body is empty. -/
def processMLX5CustomStats (_metrics : List (String × Nat))
    (driverSpecific : List (String × Nat)) : List (String × Nat) :=
  driverSpecific

/-- Source function `processMLX5Stats`. -/
def processMLX5Stats (s : DriverSched) (rawStats : List (String × Nat)) : ProcessedStats :=
  let zeroBasic : BasicStats :=
    { RxPackets := 0, RxBytes := 0, RxDrops := 0, TxPackets := 0, TxBytes := 0, TxDrops := 0 }
  let zeroPhy : PhyStats :=
    { RxPackets := 0, RxBytes := 0, TxPackets := 0, TxBytes := 0, RxDiscarded := 0,
      TxDiscarded := 0, RxPauseCtrl := 0, TxPauseCtrl := 0 }
  { Basic := processMLX5BasicStats s.basicTable rawStats zeroBasic,
    Physical := some (processMLX5PhyStats s.phyTable rawStats zeroPhy),
    PerQueue := processMLX5QueueStats s rawStats,
    DriverSpecific :=
      (s.rawCopy rawStats).foldl (fun m e => mapSet m ("raw_" ++ e.1) e.2)
        (processMLX5CustomStats rawStats []) }

/-- Source function `ProcessDriverStats`. -/
def ProcessDriverStats (s : DriverSched) (driverType : String)
    (rawStats : List (String × Nat)) : ProcessedStats :=
  if driverType = DriverMLX5 then processMLX5Stats s rawStats
  else
    { Basic :=
        { RxPackets := 0, RxBytes := 0, RxDrops := 0, TxPackets := 0, TxBytes := 0,
          TxDrops := 0 },
      Physical := none,
      PerQueue := [],
      DriverSpecific := [] }

/-! ## Queue keys and discovered queue indices -/

/-- The raw key of a per-queue counter: direction token, the decimal rendering of the
queue index without leading zeros, an underscore and the suffix, as in `rx0_packets`. -/
def queueKey (direction : String) (q : Int) (suffix : String) : String :=
  direction ++ Itoa q ++ "_" ++ suffix

/-- The queue index a raw key denotes: the key matches `mlx5QueuePattern` and its digits
are parsed by `Atoi`. -/
def queueIndexOf (name : String) : Option Int :=
  match mlx5QueuePattern name with
  | none => none
  | some groups => Atoi groups.2

/-- Queue index `q` is discovered in a snapshot when some raw key denotes it. -/
def discovered (raw : List (String × Nat)) (q : Int) : Prop :=
  ∃ e ∈ raw, queueIndexOf e.1 = some q

/-- The record of queue `q` read off a snapshot: packet and byte fields are the values
of the four keys, drop fields the 64-bit sums of the drop keys, absent keys counting 0. -/
def queueRecord (raw : List (String × Nat)) (q : Int) : QueueStats :=
  { QueueIndex := q,
    RxPackets := valOf raw (queueKey "rx" q "packets"),
    RxBytes := valOf raw (queueKey "rx" q "bytes"),
    TxPackets := valOf raw (queueKey "tx" q "packets"),
    TxBytes := valOf raw (queueKey "tx" q "bytes"),
    RxDrops := (valOf raw (queueKey "rx" q "wqe_err")
      + valOf raw (queueKey "rx" q "buff_alloc_err")) % 2 ^ 64,
    TxDrops := valOf raw (queueKey "tx" q "cqe_err") }

/-! ## `collector.go`: external collaborators

The collector reads the system through three calls: `netlink.LinkByName`,
`ethtool.DriverInfo` and `ethtool.Stats`.  Each is a function that returns a value or
an error; an error is represented by its message. -/

/-- The fields of `ethtool.DrvInfo` the collector reads. -/
structure DrvInfo where
  Driver : String
  Version : String
deriving DecidableEq, Repr

/-- The external collaborators of one scrape.  `LinkByName` returns the name
`link.Attrs().Name` of the link it finds. -/
structure Env where
  LinkByName : String → Except String String
  DriverInfo : String → Except String DrvInfo
  Stats : String → Except String (List (String × Nat))

/-- Source function `GetNICInfo`, applied to the driver-info query and the name of the link. -/
def GetNICInfo (DriverInfo : String → Except String DrvInfo) (linkName : String) :
    Except String NICInfo :=
  match DriverInfo linkName with
  | Except.error err => Except.error ("failed to get driver info: " ++ err)
  | Except.ok info =>
    if info.Driver ≠ "mlx5_core" ∧ info.Driver ≠ "ena" then
      Except.error
        ("unsupported driver: " ++ info.Driver ++ " (only mlx5 and ena drivers are supported)")
    else
      Except.ok { Name := "", Driver := "", DriverType := info.Driver, Version := info.Version }

/-- Source function `getEthtoolStats`. -/
def getEthtoolStats (env : Env) (iface : String) : Except String (List (String × Nat)) :=
  match env.Stats iface with
  | Except.error err => Except.error ("failed to get ethtool stats: " ++ err)
  | Except.ok stats => Except.ok stats

/-! ## `collector.go`: the metrics library

The part of `prometheus/client_golang` the collector calls: descriptors, constant
metrics and the checks under which `MustNewConstMetric` panics.  The value of a sample
is kept as the integer the collector converts with `float64(...)`. -/

/-- Kind of a sample. -/
inductive ValueType where
  | CounterValue
  | GaugeValue
deriving DecidableEq, Repr

/-- Metric descriptor: fully qualified name, help text, label names, and whether the library
recorded an error when the descriptor was built. -/
structure Desc where
  fqName : String
  help : String
  variableLabels : List String
  err : Bool
deriving DecidableEq, Repr

/-- One sample sent on the channel of `Collect`. -/
structure Metric where
  desc : Desc
  valType : ValueType
  value : Nat
  labelValues : List String
deriving DecidableEq, Repr

/-- ASCII letter. -/
def isLetter (c : Char) : Bool :=
  (decide (65 ≤ c.toNat) && decide (c.toNat ≤ 90)) || (decide (97 ≤ c.toNat) && decide (c.toNat ≤ 122))

/-- Metric names accepted by the library: `[a-zA-Z_:][a-zA-Z0-9_:]*`. -/
def validMetricName (s : String) : Bool :=
  match s.toList with
  | [] => false
  | c :: cs =>
    (isLetter c || c == '_' || c == ':') &&
      cs.all (fun x => isLetter x || x == '_' || x == ':' || isDigit x)

/-- Label names accepted by the library: `[a-zA-Z_][a-zA-Z0-9_]*` without the reserved
leading `__`. -/
def checkLabelName (s : String) : Bool :=
  match s.toList with
  | [] => false
  | c :: cs =>
    (isLetter c || c == '_') && cs.all (fun x => isLetter x || x == '_' || isDigit x) &&
      !(("__" : String).toList.isPrefixOf (c :: cs))

/-- Library function `BuildFQName`. -/
def BuildFQName (ns subsystem name : String) : String :=
  if name = "" then ""
  else if ns ≠ "" ∧ subsystem ≠ "" then ns ++ "_" ++ subsystem ++ "_" ++ name
  else if ns ≠ "" then ns ++ "_" ++ name
  else if subsystem ≠ "" then subsystem ++ "_" ++ name
  else name

/-- Library function `NewDesc` without constant labels: the descriptor records an error when
the name or a label name is not accepted or a label name occurs twice. -/
def NewDesc (fqName help : String) (variableLabels : List String) : Desc :=
  { fqName := fqName, help := help, variableLabels := variableLabels,
    err := !(validMetricName fqName && variableLabels.all checkLabelName
      && decide variableLabels.Nodup) }

/-- Library function `NewConstMetric`: an error when the descriptor carries an error or the
number of label values differs from the number of label names.  `MustNewConstMetric`
panics on that error. -/
def NewConstMetric (desc : Desc) (valType : ValueType) (value : Nat)
    (labelValues : List String) : Except String Metric :=
  if desc.err then Except.error "invalid descriptor"
  else if labelValues.length ≠ desc.variableLabels.length then
    Except.error "inconsistent label cardinality"
  else Except.ok { desc := desc, valType := valType, value := value, labelValues := labelValues }

/-! ## `collector.go`: the collector -/

/-- The collector: configured interfaces and descriptor cache.  The `ethtool` handle is the
`Env` passed to `Collect`. -/
structure EthtoolCollector where
  interfaces : List String
  metrics : List (String × Desc)

/-- Source function `NewEthtoolCollector`; `newEthtool` is the result of `ethtool.NewEthtool`. -/
def NewEthtoolCollector (newEthtool : Except String Unit) (interfaces : List String) :
    Except String EthtoolCollector :=
  match newEthtool with
  | Except.error err => Except.error ("failed to initialize ethtool: " ++ err)
  | Except.ok _ => Except.ok { interfaces := interfaces, metrics := [] }

/-- Source function `getOrCreateMetricDesc`: the descriptor returned and the cache after
the call. -/
def getOrCreateMetricDesc (metrics : List (String × Desc)) (name help : String)
    (labels : List String) : Desc × List (String × Desc) :=
  match mapGet metrics name with
  | some desc => (desc, metrics)
  | none =>
    let desc := NewDesc (BuildFQName "nic" "" name) help labels
    (desc, mapSet metrics name desc)

/-- State of one call of `Collect`: the descriptor cache, the samples sent on the channel so
far, whether `MustNewConstMetric` has panicked, and the arguments (name, help, labels) of
the calls of `getOrCreateMetricDesc` made so far. -/
structure Scrape where
  metrics : List (String × Desc)
  ch : List Metric
  panicked : Bool
  requested : List (String × String × List String)

/-- The three statements `desc := c.getOrCreateMetricDesc(...)`,
`metric := prometheus.MustNewConstMetric(...)`, `ch <- metric`.  After a panic nothing
more is executed. -/
def send (st : Scrape) (name help : String) (labels : List String) (valType : ValueType)
    (value : Nat) (labelValues : List String) : Scrape :=
  if st.panicked then st
  else
    match NewConstMetric (getOrCreateMetricDesc st.metrics name help labels).1 valType value
        labelValues with
    | Except.error _ =>
      { metrics := (getOrCreateMetricDesc st.metrics name help labels).2, ch := st.ch,
        panicked := true, requested := st.requested ++ [(name, help, labels)] }
    | Except.ok metric =>
      { metrics := (getOrCreateMetricDesc st.metrics name help labels).2,
        ch := st.ch ++ [metric], panicked := false,
        requested := st.requested ++ [(name, help, labels)] }

/-- The visiting orders of the `range` statements executed for one interface in `Collect`.
The statement over `queueMetrics` runs once per queue record and is indexed by the
position of the record in `PerQueue`. -/
structure CollectSched where
  driver : DriverSched
  basicMetrics : RangeOrder (String × Nat)
  queueMetrics : Nat → RangeOrder (String × Nat)
  phyStats : RangeOrder (String × Nat)

/-- Every `range` statement visits every entry exactly once. -/
structure CollectSched.Valid (s : CollectSched) : Prop where
  driver : s.driver.Valid
  basicMetrics : s.basicMetrics.Valid
  queueMetrics : ∀ i, (s.queueMetrics i).Valid
  phyStats : s.phyStats.Valid

/-- The schedule that visits every map in the order its entries are listed. -/
def CollectSched.listed : CollectSched :=
  { driver := DriverSched.listed, basicMetrics := id, queueMetrics := fun _ => id,
    phyStats := id }

/-- The schedule that visits every map in the reverse of the listed order. -/
def CollectSched.reversed : CollectSched :=
  { driver := DriverSched.reversed, basicMetrics := List.reverse,
    queueMetrics := fun _ => List.reverse, phyStats := List.reverse }

/-- The loop `for _, qStats := range processedStats.PerQueue` of `Collect`. -/
def exportQueues (order : Nat → RangeOrder (String × Nat)) (labels labelValues : List String) :
    List QueueStats → Scrape → Scrape
  | [], st => st
  | qStats :: rest, st =>
    let queueLabelValues := labelValues ++ [Itoa qStats.QueueIndex]
    let queueMetrics : List (String × Nat) :=
      [ ("queue_rx_packets", qStats.RxPackets),
        ("queue_rx_bytes", qStats.RxBytes),
        ("queue_rx_drops", qStats.RxDrops),
        ("queue_tx_packets", qStats.TxPackets),
        ("queue_tx_bytes", qStats.TxBytes),
        ("queue_tx_drops", qStats.TxDrops) ]
    exportQueues (fun i => order (i + 1)) labels labelValues rest
      ((order 0 queueMetrics).foldl
        (fun st e =>
          send st e.1 "Per-queue network interface statistic" (labels ++ ["queue"])
            ValueType.CounterValue e.2 queueLabelValues)
        st)

/-- The part of the loop body of `Collect` after the three guards: process the statistics
and send the samples of one interface. -/
def exportInterface (s : CollectSched) (st : Scrape) (ifaceName : String) (nicInfo : NICInfo)
    (ethtoolStats : List (String × Nat)) : Scrape :=
  let labels := ["interface", "driver"]
  let labelValues := [ifaceName, nicInfo.DriverType]
  let processedStats := ProcessDriverStats s.driver nicInfo.DriverType ethtoolStats
  let basicMetrics : List (String × Nat) :=
    [ ("rx_packets", processedStats.Basic.RxPackets),
      ("rx_bytes", processedStats.Basic.RxBytes),
      ("rx_drops", processedStats.Basic.RxDrops),
      ("tx_packets", processedStats.Basic.TxPackets),
      ("tx_bytes", processedStats.Basic.TxBytes),
      ("tx_drops", processedStats.Basic.TxDrops) ]
  let st₁ :=
    (s.basicMetrics basicMetrics).foldl
      (fun st e =>
        send st e.1 "Basic network interface statistic" labels ValueType.CounterValue e.2
          labelValues)
      st
  let st₂ := exportQueues s.queueMetrics labels labelValues processedStats.PerQueue st₁
  let st₃ :=
    match processedStats.Physical with
    | none => st₂
    | some physical =>
      let phyStats : List (String × Nat) :=
        [ ("rx_bytes", physical.RxBytes),
          ("tx_bytes", physical.TxBytes),
          ("rx_packets", physical.RxPackets),
          ("tx_packets", physical.TxPackets),
          ("rx_discards", physical.RxDiscarded),
          ("tx_discards", physical.TxDiscarded),
          ("rx_pause_ctrl", physical.RxPauseCtrl),
          ("tx_pause_ctrl", physical.TxPauseCtrl) ]
      (s.phyStats phyStats).foldl
        (fun st e =>
          send st ("phy_" ++ e.1) "PHY drops for network interface" labels
            ValueType.CounterValue e.2 labelValues)
        st₂
  send st₃ "info" "Network interface information" (labels ++ ["version"])
    ValueType.GaugeValue 1 (labelValues ++ [nicInfo.Version])

/-- The body of the loop `for _, ifaceName := range c.interfaces` of `Collect`: each of the
three guards ends the iteration (`continue`) without sending a sample. -/
def collectInterface (s : CollectSched) (env : Env) (st : Scrape) (ifaceName : String) :
    Scrape :=
  if st.panicked then st
  else
    match env.LinkByName ifaceName with
    | Except.error _ => st
    | Except.ok linkName =>
      match GetNICInfo env.DriverInfo linkName with
      | Except.error _ => st
      | Except.ok nicInfo =>
        match getEthtoolStats env ifaceName with
        | Except.error _ => st
        | Except.ok ethtoolStats => exportInterface s st ifaceName nicInfo ethtoolStats

/-- The loop of `Collect` over the interfaces; `s i` holds the visiting orders used for the
interface at position `i`. -/
def collectLoop (s : Nat → CollectSched) (env : Env) : List String → Scrape → Scrape
  | [], st => st
  | ifaceName :: rest, st =>
    collectLoop (fun i => s (i + 1)) env rest (collectInterface (s 0) env st ifaceName)

/-- Source function `Collect`: the state after the call, starting from the cache of the
collector, an empty channel and no call of `getOrCreateMetricDesc` made. -/
def Collect (s : Nat → CollectSched) (env : Env) (c : EthtoolCollector) : Scrape :=
  collectLoop s env c.interfaces
    { metrics := c.metrics, ch := [], panicked := false, requested := [] }

/-- The collector states the program reaches: the one `NewEthtoolCollector` returns, and the
state after any call of `Collect` on a reachable state. -/
inductive Reachable : EthtoolCollector → Prop where
  | new (interfaces : List String) : Reachable { interfaces := interfaces, metrics := [] }
  | collect (c : EthtoolCollector) (s : Nat → CollectSched) (env : Env) :
      Reachable c → (∀ i, (s i).Valid) →
      Reachable { interfaces := c.interfaces, metrics := (Collect s env c).metrics }

/-- An interface is processed in a scrape when the link is found, the driver is resolved and
the counters are fetched; the result is the identity and the snapshot. -/
def resolve (env : Env) (ifaceName : String) : Option (NICInfo × List (String × Nat)) :=
  match env.LinkByName ifaceName with
  | Except.error _ => none
  | Except.ok linkName =>
    match GetNICInfo env.DriverInfo linkName with
    | Except.error _ => none
    | Except.ok nicInfo =>
      match getEthtoolStats env ifaceName with
      | Except.error _ => none
      | Except.ok ethtoolStats => some (nicInfo, ethtoolStats)

/-! ## The samples of one scrape, read off the statistics

The functions below describe the samples of an interface without reference to the
descriptor cache; `Collect` is compared with them. -/

/-- The sample with the descriptor `getOrCreateMetricDesc` creates for `name`. -/
def sampleOf (name help : String) (labels : List String) (valType : ValueType) (value : Nat)
    (labelValues : List String) : Metric :=
  { desc := NewDesc (BuildFQName "nic" "" name) help labels, valType := valType,
    value := value, labelValues := labelValues }

/-- The samples of the queue records, in the order `exportQueues` sends them. -/
def queueSamples (order : Nat → RangeOrder (String × Nat)) (labelValues : List String) :
    List QueueStats → List Metric
  | [] => []
  | qStats :: rest =>
    (order 0
      [ ("queue_rx_packets", qStats.RxPackets),
        ("queue_rx_bytes", qStats.RxBytes),
        ("queue_rx_drops", qStats.RxDrops),
        ("queue_tx_packets", qStats.TxPackets),
        ("queue_tx_bytes", qStats.TxBytes),
        ("queue_tx_drops", qStats.TxDrops) ]).map
      (fun e =>
        sampleOf e.1 "Per-queue network interface statistic" ["interface", "driver", "queue"]
          ValueType.CounterValue e.2 (labelValues ++ [Itoa qStats.QueueIndex]))
    ++ queueSamples (fun i => order (i + 1)) labelValues rest

/-- The counter samples of one processed interface: basic, per-queue, physical. -/
def counterSamples (s : CollectSched) (ifaceName : String) (nicInfo : NICInfo)
    (ethtoolStats : List (String × Nat)) : List Metric :=
  let processedStats := ProcessDriverStats s.driver nicInfo.DriverType ethtoolStats
  let labelValues := [ifaceName, nicInfo.DriverType]
  (s.basicMetrics
    [ ("rx_packets", processedStats.Basic.RxPackets),
      ("rx_bytes", processedStats.Basic.RxBytes),
      ("rx_drops", processedStats.Basic.RxDrops),
      ("tx_packets", processedStats.Basic.TxPackets),
      ("tx_bytes", processedStats.Basic.TxBytes),
      ("tx_drops", processedStats.Basic.TxDrops) ]).map
    (fun e =>
      sampleOf e.1 "Basic network interface statistic" ["interface", "driver"]
        ValueType.CounterValue e.2 labelValues)
  ++ queueSamples s.queueMetrics labelValues processedStats.PerQueue
  ++ (match processedStats.Physical with
      | none => []
      | some physical =>
        (s.phyStats
          [ ("rx_bytes", physical.RxBytes),
            ("tx_bytes", physical.TxBytes),
            ("rx_packets", physical.RxPackets),
            ("tx_packets", physical.TxPackets),
            ("rx_discards", physical.RxDiscarded),
            ("tx_discards", physical.TxDiscarded),
            ("rx_pause_ctrl", physical.RxPauseCtrl),
            ("tx_pause_ctrl", physical.TxPauseCtrl) ]).map
          (fun e =>
            sampleOf ("phy_" ++ e.1) "PHY drops for network interface" ["interface", "driver"]
              ValueType.CounterValue e.2 labelValues))

/-- The informational sample of one processed interface. -/
def infoSample (ifaceName : String) (nicInfo : NICInfo) : Metric :=
  { desc :=
      { fqName := "nic_info", help := "Network interface information",
        variableLabels := ["interface", "driver", "version"], err := false },
    valType := ValueType.GaugeValue,
    value := 1,
    labelValues := [ifaceName, nicInfo.DriverType, nicInfo.Version] }

/-- The samples of one interface in one scrape: none when a guard skips the interface,
otherwise its counter samples followed by its informational sample. -/
def interfaceSamples (s : CollectSched) (env : Env) (ifaceName : String) : List Metric :=
  match resolve env ifaceName with
  | none => []
  | some (nicInfo, ethtoolStats) =>
    counterSamples s ifaceName nicInfo ethtoolStats ++ [infoSample ifaceName nicInfo]

/-- The metric names `Collect` requests, each with the help text and label names of its
request. -/
def metricSchema : List (String × String × List String) :=
  [ ("rx_packets", "Basic network interface statistic", ["interface", "driver"]),
    ("rx_bytes", "Basic network interface statistic", ["interface", "driver"]),
    ("rx_drops", "Basic network interface statistic", ["interface", "driver"]),
    ("tx_packets", "Basic network interface statistic", ["interface", "driver"]),
    ("tx_bytes", "Basic network interface statistic", ["interface", "driver"]),
    ("tx_drops", "Basic network interface statistic", ["interface", "driver"]),
    ("queue_rx_packets", "Per-queue network interface statistic",
      ["interface", "driver", "queue"]),
    ("queue_rx_bytes", "Per-queue network interface statistic",
      ["interface", "driver", "queue"]),
    ("queue_rx_drops", "Per-queue network interface statistic",
      ["interface", "driver", "queue"]),
    ("queue_tx_packets", "Per-queue network interface statistic",
      ["interface", "driver", "queue"]),
    ("queue_tx_bytes", "Per-queue network interface statistic",
      ["interface", "driver", "queue"]),
    ("queue_tx_drops", "Per-queue network interface statistic",
      ["interface", "driver", "queue"]),
    ("phy_rx_bytes", "PHY drops for network interface", ["interface", "driver"]),
    ("phy_tx_bytes", "PHY drops for network interface", ["interface", "driver"]),
    ("phy_rx_packets", "PHY drops for network interface", ["interface", "driver"]),
    ("phy_tx_packets", "PHY drops for network interface", ["interface", "driver"]),
    ("phy_rx_discards", "PHY drops for network interface", ["interface", "driver"]),
    ("phy_tx_discards", "PHY drops for network interface", ["interface", "driver"]),
    ("phy_rx_pause_ctrl", "PHY drops for network interface", ["interface", "driver"]),
    ("phy_tx_pause_ctrl", "PHY drops for network interface", ["interface", "driver"]),
    ("info", "Network interface information", ["interface", "driver", "version"]) ]

/-- Invariant of the descriptor cache: every cached descriptor is the one created for a
request of `metricSchema`. -/
def CacheOK (metrics : List (String × Desc)) : Prop :=
  ∀ e ∈ metrics, ∃ r ∈ metricSchema,
    e = (r.1, NewDesc (BuildFQName "nic" "" r.1) r.2.1 r.2.2)

/-- A scrape state from which sending continues: the cache satisfies its invariant and no
panic has occurred. -/
def Scrape.Good (st : Scrape) : Prop := CacheOK st.metrics ∧ st.panicked = false

/-- Invariant of the loop over the snapshot: `queueMap` holds, for exactly the queue indices
discovered among the keys visited so far, the record read off those keys. -/
def QueueInv (es : List (String × Nat)) (qm : List (Int × QueueStats)) : Prop :=
  (mapKeys qm).Nodup ∧
  (∀ q r, mapGet qm q = some r → discovered es q ∧ r = queueRecord es q) ∧
  (∀ q, discovered es q → ∃ r, mapGet qm q = some r)

/-- An environment with three links: `eth0` driven by `mlx5_core`, `eth1` driven by
`e1000`, `eth2` driven by `ena`; every other name is unknown.  The counters of `eth0` hold
a basic key, a queue key and a key no mapping table knows. -/
def sampleEnv : Env where
  LinkByName := fun name =>
    if name = "eth0" ∨ name = "eth1" ∨ name = "eth2" then Except.ok name
    else Except.error "Link not found"
  DriverInfo := fun name =>
    if name = "eth0" then Except.ok { Driver := "mlx5_core", Version := "5.0" }
    else if name = "eth1" then Except.ok { Driver := "e1000", Version := "1.0" }
    else Except.ok { Driver := "ena", Version := "2.0" }
  Stats := fun name =>
    if name = "eth0" then Except.ok [("rx_packets", 100), ("rx0_packets", 5), ("vendor_x", 3)]
    else Except.ok [("rx_packets", 9)]

/-! ## Assignment of a queue key to a canonical counter -/

/-- The guard under which the loop body of `processMLX5QueueStats` executes the `switch`
case of `queueMetric` for the raw key `name` of queue `qIndex`: some source metric of
`queueMetric` in `MLX5QueueMetricMapping` has `name` as its expected name. -/
def assignsTo (name : String) (qIndex : Int) (queueMetric : String) : Prop :=
  ∃ entry ∈ MLX5QueueMetricMapping, entry.1 = queueMetric ∧
    ∃ sourceMetric ∈ entry.2, name = expectedName sourceMetric qIndex

/-- Membership of a source metric in the source list of `queueMetric` in
`MLX5QueueMetricMapping`. -/
def sourceOf (queueMetric sourceMetric : String) : Prop :=
  ∃ entry ∈ MLX5QueueMetricMapping, entry.1 = queueMetric ∧ sourceMetric ∈ entry.2

/-- The non-indexed name of a raw key that matches the queue pattern: the key with its
index digits removed, direction + `_` + suffix. -/
def nonIndexedName (name : String) : Option String :=
  match mlx5QueuePattern name with
  | none => none
  | some groups =>
    some (groups.1 ++ "_" ++
      String.mk (name.toList.drop (groups.1.toList.length + groups.2.toList.length + 1)))

/-! ## Metric names and label lists -/

/-- The names of the basic metrics. -/
def basicMetricNames : List String :=
  ["rx_packets", "rx_bytes", "rx_drops", "tx_packets", "tx_bytes", "tx_drops"]

/-- The names of the physical metrics, with their `phy_` in front. -/
def phyMetricNames : List String :=
  ["phy_rx_bytes", "phy_tx_bytes", "phy_rx_packets", "phy_tx_packets", "phy_rx_discards",
    "phy_tx_discards", "phy_rx_pause_ctrl", "phy_tx_pause_ctrl"]

/-- The names of the per-queue metrics. -/
def queueMetricNames : List String :=
  ["queue_rx_packets", "queue_rx_bytes", "queue_rx_drops", "queue_tx_packets",
    "queue_tx_bytes", "queue_tx_drops"]

/-- The label list of a request belongs to the family of its metric name. -/
def inFamily (req : String × String × List String) : Prop :=
  (req.1 ∈ basicMetricNames ∧ req.2.2 = ["interface", "driver"]) ∨
  (req.1 ∈ phyMetricNames ∧ req.2.2 = ["interface", "driver"]) ∨
  (req.1 ∈ queueMetricNames ∧ req.2.2 = ["interface", "driver", "queue"]) ∨
  (req.1 = "info" ∧ req.2.2 = ["interface", "driver", "version"])

/-- Invariant of a scrape: sending can continue, every request made so far is one of
`metricSchema` and its name is cached, and every sample sent so far has a descriptor
without error and as many label values as its descriptor has label names. -/
def Scrape.Sound (st : Scrape) : Prop :=
  st.Good ∧
    (∀ req ∈ st.requested, req ∈ metricSchema ∧ ∃ desc, mapGet st.metrics req.1 = some desc) ∧
    (∀ m ∈ st.ch, m.desc.err = false ∧ m.labelValues.length = m.desc.variableLabels.length)

/-! # Properties -/

/-! ## Lemmas on Go maps -/

theorem mapGet_eq_some_of_mem {κ ν : Type} [DecidableEq κ] :
    ∀ (m : List (κ × ν)) (k : κ) (v : ν), (mapKeys m).Nodup → (k, v) ∈ m → mapGet m k = some v
  | [], _, _, _, h => by simp at h
  | (k', v') :: rest, k, v, hnd, h => by
    simp only [mapKeys, List.map_cons, List.nodup_cons] at hnd
    simp only [List.mem_cons, Prod.mk.injEq] at h
    rcases h with ⟨rfl, rfl⟩ | h
    · simp [mapGet]
    · have hne : k ≠ k' := by
        rintro rfl
        exact hnd.1 (List.mem_map.2 ⟨(k, v), h, rfl⟩)
      simp only [mapGet, hne, if_false]
      exact mapGet_eq_some_of_mem rest k v hnd.2 h

theorem mem_of_mapGet_eq_some {κ ν : Type} [DecidableEq κ] :
    ∀ (m : List (κ × ν)) (k : κ) (v : ν), mapGet m k = some v → (k, v) ∈ m
  | [], _, _, h => by simp [mapGet] at h
  | (k', v') :: rest, k, v, h => by
    by_cases hk : k = k'
    · subst hk
      simp only [mapGet, if_true, Option.some.injEq] at h
      subst h
      exact List.mem_cons_self _ _
    · simp only [mapGet, hk, if_false] at h
      exact List.mem_cons_of_mem _ (mem_of_mapGet_eq_some rest k v h)

theorem mapGet_eq_none_iff {κ ν : Type} [DecidableEq κ] :
    ∀ (m : List (κ × ν)) (k : κ), mapGet m k = none ↔ k ∉ mapKeys m
  | [], _ => by simp [mapGet, mapKeys]
  | (k', v') :: rest, k => by
    by_cases hk : k = k'
    · subst hk
      simp [mapGet, mapKeys]
    · have ih := mapGet_eq_none_iff rest k
      simp only [mapKeys] at ih
      simp [mapGet, mapKeys, hk, ih]

theorem mapGet_perm {κ ν : Type} [DecidableEq κ] (m₁ m₂ : List (κ × ν)) (k : κ)
    (hnd : (mapKeys m₁).Nodup) (hp : m₂.Perm m₁) : mapGet m₂ k = mapGet m₁ k := by
  have hnd₂ : (mapKeys m₂).Nodup := (hp.map Prod.fst).nodup_iff.2 hnd
  cases h₁ : mapGet m₁ k with
  | none =>
    rw [mapGet_eq_none_iff] at h₁ ⊢
    intro hmem
    exact h₁ ((hp.map Prod.fst).subset hmem)
  | some v =>
    exact mapGet_eq_some_of_mem m₂ k v hnd₂ (hp.symm.subset (mem_of_mapGet_eq_some m₁ k v h₁))

theorem valOf_lt (m : List (String × Nat)) (h : RawOK m) (k : String) : valOf m k < 2 ^ 64 := by
  unfold valOf
  cases hk : mapGet m k with
  | none => simp
  | some v => exact h.2 (k, v) (mem_of_mapGet_eq_some m k v hk)

/-! ## Basic statistics -/

theorem sumSources_one (raw : List (String × Nat)) (h : RawOK raw) (a : String) :
    sumSources raw [a] = valOf raw a := by
  have ha := valOf_lt raw h a
  unfold valOf at *
  cases hk : mapGet raw a with
  | none => simp [sumSources, hk]
  | some v =>
    rw [hk] at ha
    simp only [Option.getD_some] at ha
    simp only [sumSources, List.foldl_cons, List.foldl_nil, hk, Option.getD_some]
    omega

theorem sumSources_three (raw : List (String × Nat)) (a b c : String) :
    sumSources raw [a, b, c] = (valOf raw a + valOf raw b + valOf raw c) % 2 ^ 64 := by
  simp only [sumSources, List.foldl_cons, List.foldl_nil, valOf]
  cases mapGet raw a <;> cases mapGet raw b <;> cases mapGet raw c <;>
    simp only [Option.getD_some, Option.getD_none] <;> omega

theorem assignBasic_RxPackets (a : String) (t : Nat) (z : BasicStats) :
    (assignBasic a t z).RxPackets = if a = CounterRxPackets then t else z.RxPackets := by
  unfold assignBasic
  split_ifs <;> rfl

theorem assignBasic_RxBytes (a : String) (t : Nat) (z : BasicStats) :
    (assignBasic a t z).RxBytes = if a = CounterRxBytes then t else z.RxBytes := by
  unfold assignBasic
  split_ifs <;> first | rfl | simp_all +decide

theorem assignBasic_TxPackets (a : String) (t : Nat) (z : BasicStats) :
    (assignBasic a t z).TxPackets = if a = CounterTxPackets then t else z.TxPackets := by
  unfold assignBasic
  split_ifs <;> first | rfl | simp_all +decide

theorem assignBasic_TxBytes (a : String) (t : Nat) (z : BasicStats) :
    (assignBasic a t z).TxBytes = if a = CounterTxBytes then t else z.TxBytes := by
  unfold assignBasic
  split_ifs <;> first | rfl | simp_all +decide

theorem assignBasic_RxDrops (a : String) (t : Nat) (z : BasicStats) :
    (assignBasic a t z).RxDrops = if a = CounterRxDrops then t else z.RxDrops := by
  unfold assignBasic
  split_ifs <;> first | rfl | simp_all +decide

theorem assignBasic_TxDrops (a : String) (t : Nat) (z : BasicStats) :
    (assignBasic a t z).TxDrops = if a = CounterTxDrops then t else z.TxDrops := by
  unfold assignBasic
  split_ifs <;> first | rfl | simp_all +decide

theorem assignBasic_comm (a b : String) (ta tb : Nat) (z : BasicStats) (h : a = b → ta = tb) :
    assignBasic b tb (assignBasic a ta z) = assignBasic a ta (assignBasic b tb z) := by
  by_cases hab : a = b
  · subst hab
    rw [h rfl]
  · apply BasicStats.ext <;>
      simp only [assignBasic_RxPackets, assignBasic_RxBytes, assignBasic_TxPackets,
        assignBasic_TxBytes, assignBasic_RxDrops, assignBasic_TxDrops] <;>
      split_ifs with h1 h2 <;>
      first | rfl | exact absurd (h2.trans h1.symm) hab

theorem basicTable_keys : ∀ x ∈ MLX5MetricMapping, ∀ y ∈ MLX5MetricMapping, x.1 = y.1 → x = y := by
  decide

theorem processMLX5BasicStats_order (order : RangeOrder (String × List String))
    (ho : order.Valid) (raw : List (String × Nat)) (z : BasicStats) :
    processMLX5BasicStats order raw z = processMLX5BasicStats id raw z := by
  unfold processMLX5BasicStats
  refine ((ho MLX5MetricMapping).symm.foldl_eq' ?_ z).symm
  intro x hx y hy st
  apply assignBasic_comm
  intro hxy
  rw [basicTable_keys x hx y hy hxy]

theorem processMLX5BasicStats_listed (raw : List (String × Nat)) (h : RawOK raw) (z : BasicStats) :
    processMLX5BasicStats id raw z =
      { RxPackets := valOf raw "rx_packets", RxBytes := valOf raw "rx_bytes",
        RxDrops := (valOf raw "rx_out_of_buffer" + valOf raw "rx_buff_alloc_err"
          + valOf raw "rx_wqe_err") % 2 ^ 64,
        TxPackets := valOf raw "tx_packets", TxBytes := valOf raw "tx_bytes",
        TxDrops := valOf raw "tx_cqe_err" } := by
  simp only [processMLX5BasicStats, MLX5MetricMapping, id, List.foldl_cons, List.foldl_nil,
    sumSources_one raw h, sumSources_three]
  apply BasicStats.ext <;>
    simp only [assignBasic_RxPackets, assignBasic_RxBytes, assignBasic_TxPackets,
      assignBasic_TxBytes, assignBasic_RxDrops, assignBasic_TxDrops] <;>
    simp [CounterRxPackets, CounterRxBytes, CounterTxPackets, CounterTxBytes,
      CounterRxDrops, CounterTxDrops]

theorem driverSched_listed_valid : DriverSched.listed.Valid :=
  ⟨fun _ => List.Perm.refl _, fun _ => List.Perm.refl _, fun _ => List.Perm.refl _,
    fun _ _ => List.Perm.refl _, fun _ => List.Perm.refl _, fun _ => List.Perm.refl _⟩

theorem driverSched_reversed_valid : DriverSched.reversed.Valid :=
  ⟨fun l => List.reverse_perm l, fun l => List.reverse_perm l, fun l => List.reverse_perm l,
    fun _ l => List.reverse_perm l, fun l => List.reverse_perm l, fun l => List.reverse_perm l⟩

theorem processDriverStats_basic (s : DriverSched) (hs : s.Valid) (raw : List (String × Nat))
    (h : RawOK raw) :
    (ProcessDriverStats s "mlx5_core" raw).Basic =
      { RxPackets := valOf raw "rx_packets", RxBytes := valOf raw "rx_bytes",
        RxDrops := (valOf raw "rx_out_of_buffer" + valOf raw "rx_buff_alloc_err"
          + valOf raw "rx_wqe_err") % 2 ^ 64,
        TxPackets := valOf raw "tx_packets", TxBytes := valOf raw "tx_bytes",
        TxDrops := valOf raw "tx_cqe_err" } := by
  have hd : ("mlx5_core" : String) = DriverMLX5 := rfl
  simp only [ProcessDriverStats, hd, if_true, processMLX5Stats]
  rw [processMLX5BasicStats_order s.basicTable hs.basicTable, processMLX5BasicStats_listed raw h]

/-- C1: for driver type `mlx5_core` and every well-formed raw snapshot, under every
visiting order of the maps, the six basic counters are the 64-bit sums of the values
of their source keys of `MLX5MetricMapping` that are present (an absent key counts 0,
no error result exists); a snapshot that agrees on the source keys of the table, visited
in any order, gives the same basic counters. -/
theorem C1_basic_counters_sum_mapped_sources (s : DriverSched) (hs : s.Valid)
    (raw : List (String × Nat)) (h : RawOK raw) :
    (ProcessDriverStats s "mlx5_core" raw).Basic.RxPackets = valOf raw "rx_packets" ∧
    (ProcessDriverStats s "mlx5_core" raw).Basic.RxBytes = valOf raw "rx_bytes" ∧
    (ProcessDriverStats s "mlx5_core" raw).Basic.TxPackets = valOf raw "tx_packets" ∧
    (ProcessDriverStats s "mlx5_core" raw).Basic.TxBytes = valOf raw "tx_bytes" ∧
    (ProcessDriverStats s "mlx5_core" raw).Basic.RxDrops =
      (valOf raw "rx_out_of_buffer" + valOf raw "rx_buff_alloc_err" + valOf raw "rx_wqe_err")
        % 2 ^ 64 ∧
    (ProcessDriverStats s "mlx5_core" raw).Basic.TxDrops = valOf raw "tx_cqe_err" ∧
    ∀ (s' : DriverSched) (raw' : List (String × Nat)), s'.Valid → RawOK raw' →
      (∀ k, (∃ e ∈ MLX5MetricMapping, k ∈ e.2) → mapGet raw' k = mapGet raw k) →
      (ProcessDriverStats s' "mlx5_core" raw').Basic = (ProcessDriverStats s "mlx5_core" raw).Basic := by
  rw [processDriverStats_basic s hs raw h]
  refine ⟨rfl, rfl, rfl, rfl, rfl, rfl, ?_⟩
  intro s' raw' hs' h' hk
  rw [processDriverStats_basic s' hs' raw' h']
  have e : ∀ k, (∃ e ∈ MLX5MetricMapping, k ∈ e.2) → valOf raw' k = valOf raw k := by
    intro k hmem
    unfold valOf
    rw [hk k hmem]
  rw [e "rx_packets" (by decide), e "rx_bytes" (by decide), e "tx_packets" (by decide),
    e "tx_bytes" (by decide), e "rx_out_of_buffer" (by decide),
    e "rx_buff_alloc_err" (by decide), e "rx_wqe_err" (by decide), e "tx_cqe_err" (by decide)]

/-- The snapshot of the basic-counter scenario is well formed. -/
theorem basicScenario_ok :
    RawOK [("rx_packets", 100), ("tx_packets", 80), ("rx_out_of_buffer", 3), ("rx_wqe_err", 2)] := by
  unfold RawOK mapKeys
  decide

/-- Witness of C1: the snapshot `rx_packets:100, tx_packets:80, rx_out_of_buffer:3, rx_wqe_err:2`
gives `RxDrops = 5`. -/
theorem C1_basic_counters_sum_mapped_sources_witness :
    (ProcessDriverStats DriverSched.reversed "mlx5_core"
      [("rx_packets", 100), ("tx_packets", 80), ("rx_out_of_buffer", 3),
        ("rx_wqe_err", 2)]).Basic.RxDrops = 5 :=
  (C1_basic_counters_sum_mapped_sources DriverSched.reversed driverSched_reversed_valid
    [("rx_packets", 100), ("tx_packets", 80), ("rx_out_of_buffer", 3), ("rx_wqe_err", 2)]
    basicScenario_ok).2.2.2.2.1.trans (by decide)

/-! ## Decimal rendering and parsing -/

theorem digitChar_spec : ∀ d, d < 10 → isDigit (digitChar d) = true ∧ digitVal (digitChar d) = d := by
  decide

theorem parseDec_append (xs : List Char) (c : Char) :
    parseDec (xs ++ [c]) = parseDec xs * 10 + digitVal c := by
  simp [parseDec, List.foldl_append]

theorem decDigits_spec : ∀ (fuel n : Nat), n < fuel →
    decDigits fuel n ≠ [] ∧ (∀ c ∈ decDigits fuel n, isDigit c = true) ∧
      parseDec (decDigits fuel n) = n
  | 0, n, h => by omega
  | fuel + 1, n, h => by
    unfold decDigits
    by_cases hn : n < 10
    · simp only [hn, if_true]
      refine ⟨by simp, ?_, ?_⟩
      · intro c hc
        simp only [List.mem_singleton] at hc
        subst hc
        exact (digitChar_spec n hn).1
      · simp [parseDec, (digitChar_spec n hn).2]
    · simp only [hn, if_false]
      have hlt : n / 10 < fuel := by omega
      obtain ⟨_, h2, h3⟩ := decDigits_spec fuel (n / 10) hlt
      have hmod : n % 10 < 10 := Nat.mod_lt _ (by decide)
      refine ⟨by simp, ?_, ?_⟩
      · intro c hc
        rcases List.mem_append.1 hc with hc | hc
        · exact h2 c hc
        · simp only [List.mem_singleton] at hc
          subst hc
          exact (digitChar_spec _ hmod).1
      · rw [parseDec_append, h3, (digitChar_spec _ hmod).2]
        omega

theorem Atoi_digits (d : Char) (ds : List Char) (hd : isDigit d = true)
    (hds : ∀ c ∈ ds, isDigit c = true) :
    Atoi (String.mk (d :: ds)) =
      if parseDec (d :: ds) < 2 ^ 63 then some (parseDec (d :: ds) : Int) else none := by
  have hall : (d :: ds).all isDigit = true := by
    simp only [List.all_cons, hd, Bool.true_and, List.all_eq_true]
    exact hds
  unfold Atoi
  simp only [String.toList]
  split
  · rename_i body heq
    simp only [List.cons.injEq] at heq
    rw [heq.1] at hd
    exact absurd hd (by decide)
  · rename_i body heq
    simp only [List.cons.injEq] at heq
    rw [heq.1] at hd
    exact absurd hd (by decide)
  · simp [hall]

theorem Itoa_natCast_toList (n : Nat) : (Itoa (n : Int)).toList = decDigits (n + 1) n := rfl

theorem Atoi_Itoa (q : Int) (h0 : 0 ≤ q) (h1 : q < 2 ^ 63) : Atoi (Itoa q) = some q := by
  obtain ⟨n, rfl⟩ := Int.eq_ofNat_of_zero_le h0
  obtain ⟨hne, hdig, hparse⟩ := decDigits_spec (n + 1) n (Nat.lt_succ_self n)
  have hI : Itoa (n : Int) = String.mk (decDigits (n + 1) n) := rfl
  rw [hI]
  cases hds : decDigits (n + 1) n with
  | nil => exact absurd hds hne
  | cons d ds =>
    rw [hds] at hdig hparse
    rw [Atoi_digits d ds (hdig d (List.mem_cons_self _ _))
      (fun c hc => hdig c (List.mem_cons_of_mem _ hc)), hparse]
    have : n < 2 ^ 63 := by exact_mod_cast h1
    rw [if_pos this]

/-! ## The queue pattern on queue keys -/

theorem takeWhile_digits (ds rest : List Char) (h : ∀ c ∈ ds, isDigit c = true) :
    (ds ++ '_' :: rest).takeWhile isDigit = ds ∧
      (ds ++ '_' :: rest).dropWhile isDigit = '_' :: rest := by
  induction ds with
  | nil =>
    have : isDigit '_' = false := by decide
    simp [List.takeWhile, List.dropWhile, this]
  | cons d ds ih =>
    have hd : isDigit d = true := h d (List.mem_cons_self _ _)
    have ih' := ih (fun c hc => h c (List.mem_cons_of_mem _ hc))
    simp [List.takeWhile, List.dropWhile, hd, ih'.1, ih'.2]

theorem matchDigits_key (direction : String) (ds rest : List Char) (hne : ds ≠ [])
    (h : ∀ c ∈ ds, isDigit c = true) :
    matchDigits direction (ds ++ '_' :: rest) = some (direction, String.mk ds) := by
  unfold matchDigits
  rw [(takeWhile_digits ds rest h).1, (takeWhile_digits ds rest h).2]
  cases ds with
  | nil => exact absurd rfl hne
  | cons d ds => rfl

theorem queueKey_toList (direction : String) (q : Int) (suffix : String) :
    (queueKey direction q suffix).toList =
      direction.toList ++ ((Itoa q).toList ++ '_' :: suffix.toList) := by
  simp [queueKey, String.toList, List.append_assoc]

theorem mlx5QueuePattern_key (direction : String) (hd : direction = "rx" ∨ direction = "tx")
    (q : Int) (h0 : 0 ≤ q) (suffix : String) :
    mlx5QueuePattern (queueKey direction q suffix) = some (direction, Itoa q) := by
  obtain ⟨n, rfl⟩ := Int.eq_ofNat_of_zero_le h0
  obtain ⟨hne, hdig, _⟩ := decDigits_spec (n + 1) n (Nat.lt_succ_self n)
  have hI : Itoa (n : Int) = String.mk (decDigits (n + 1) n) := rfl
  unfold mlx5QueuePattern
  rw [queueKey_toList, Itoa_natCast_toList]
  rcases hd with rfl | rfl
  · show matchDigits "rx" (decDigits (n + 1) n ++ '_' :: suffix.toList) = _
    rw [matchDigits_key "rx" _ _ hne hdig, hI]
  · show matchDigits "tx" (decDigits (n + 1) n ++ '_' :: suffix.toList) = _
    rw [matchDigits_key "tx" _ _ hne hdig, hI]

theorem queueIndexOf_key (direction : String) (hd : direction = "rx" ∨ direction = "tx")
    (q : Int) (h0 : 0 ≤ q) (h1 : q < 2 ^ 63) (suffix : String) :
    queueIndexOf (queueKey direction q suffix) = some q := by
  unfold queueIndexOf
  rw [mlx5QueuePattern_key direction hd q h0 suffix]
  exact Atoi_Itoa q h0 h1

theorem matchDigits_digits (direction : String) (rest : List Char) (g : String × String)
    (h : matchDigits direction rest = some g) :
    ∃ d ds, g.2 = String.mk (d :: ds) ∧ isDigit d = true ∧ ∀ c ∈ ds, isDigit c = true := by
  unfold matchDigits at h
  split at h
  · rename_i d ds tl htake hdrop
    simp only [Option.some.injEq] at h
    subst h
    have hmem : ∀ c ∈ d :: ds, isDigit c = true := by
      intro c hc
      rw [← htake] at hc
      exact List.mem_takeWhile_imp hc
    exact ⟨d, ds, rfl, hmem d (List.mem_cons_self _ _),
      fun c hc => hmem c (List.mem_cons_of_mem _ hc)⟩
  · exact absurd h (by simp)

theorem mlx5QueuePattern_digits (name : String) (g : String × String)
    (h : mlx5QueuePattern name = some g) :
    ∃ d ds, g.2 = String.mk (d :: ds) ∧ isDigit d = true ∧ ∀ c ∈ ds, isDigit c = true := by
  unfold mlx5QueuePattern at h
  split at h
  · exact matchDigits_digits _ _ g h
  · exact matchDigits_digits _ _ g h
  · exact absurd h (by simp)

theorem queueIndexOf_range (name : String) (q : Int) (h : queueIndexOf name = some q) :
    0 ≤ q ∧ q < 2 ^ 63 := by
  unfold queueIndexOf at h
  split at h
  · exact absurd h (by simp)
  · rename_i g hg
    obtain ⟨d, ds, hgs, hd, hds⟩ := mlx5QueuePattern_digits name g hg
    rw [hgs, Atoi_digits d ds hd hds] at h
    split_ifs at h with hlt
    simp only [Option.some.injEq] at h
    subst h
    exact ⟨Int.ofNat_nonneg _, by exact_mod_cast hlt⟩

theorem queueKey_inj (d₁ d₂ : String) (q : Int) (s₁ s₂ : String)
    (hlen : d₁.toList.length = d₂.toList.length)
    (h : queueKey d₁ q s₁ = queueKey d₂ q s₂) : d₁ = d₂ ∧ s₁ = s₂ := by
  have h' := congrArg String.toList h
  rw [queueKey_toList, queueKey_toList] at h'
  obtain ⟨h1, h2⟩ := List.append_inj h' hlen
  have h3 := List.append_cancel_left h2
  simp only [List.cons.injEq, true_and] at h3
  exact ⟨String.ext h1, String.ext h3⟩

theorem expectedName_eq (direction suffix : String)
    (h : splitHead (direction ++ "_" ++ suffix) = direction) (q : Int) :
    expectedName (direction ++ "_" ++ suffix) q = queueKey direction q suffix := by
  have ht : TrimPrefix (direction ++ "_" ++ suffix) (direction ++ "_") = suffix := by
    unfold TrimPrefix
    have hp : (direction ++ "_").toList.isPrefixOf (direction ++ "_" ++ suffix).toList = true := by
      simp [String.toList]
    rw [if_pos hp]
    apply String.ext
    have hl : (direction ++ "_").toList.length = direction.data.length + 1 := by
      simp [String.toList]
    have hd : (direction ++ "_" ++ suffix).toList = (direction.data ++ ['_']) ++ suffix.data := by
      simp [String.toList]
    rw [hl, hd]
    show List.drop (direction.data.length + 1) (direction.data ++ ['_'] ++ suffix.data) = suffix.data
    have hl' : (direction.data ++ ['_']).length = direction.data.length + 1 := by simp
    rw [← hl', List.drop_left]
  simp only [expectedName, h, ht, queueKey]

/-! ## The loop over `MLX5QueueMetricMapping` -/

theorem assignQueue_QueueIndex (m : String) (v : Nat) (r : QueueStats) :
    (assignQueue m v r).QueueIndex = r.QueueIndex := by
  unfold assignQueue
  split_ifs <;> rfl

theorem assignQueue_RxPackets (m : String) (v : Nat) (r : QueueStats) :
    (assignQueue m v r).RxPackets = if m = CounterRxPackets then v else r.RxPackets := by
  unfold assignQueue
  split_ifs <;> rfl

theorem assignQueue_RxBytes (m : String) (v : Nat) (r : QueueStats) :
    (assignQueue m v r).RxBytes = if m = CounterRxBytes then v else r.RxBytes := by
  unfold assignQueue
  split_ifs <;> first | rfl | simp_all +decide

theorem assignQueue_TxPackets (m : String) (v : Nat) (r : QueueStats) :
    (assignQueue m v r).TxPackets = if m = CounterTxPackets then v else r.TxPackets := by
  unfold assignQueue
  split_ifs <;> first | rfl | simp_all +decide

theorem assignQueue_TxBytes (m : String) (v : Nat) (r : QueueStats) :
    (assignQueue m v r).TxBytes = if m = CounterTxBytes then v else r.TxBytes := by
  unfold assignQueue
  split_ifs <;> first | rfl | simp_all +decide

theorem assignQueue_RxDrops (m : String) (v : Nat) (r : QueueStats) :
    (assignQueue m v r).RxDrops =
      if m = CounterRxDrops then (r.RxDrops + v) % 2 ^ 64 else r.RxDrops := by
  unfold assignQueue
  split_ifs <;> first | rfl | simp_all +decide

theorem assignQueue_TxDrops (m : String) (v : Nat) (r : QueueStats) :
    (assignQueue m v r).TxDrops =
      if m = CounterTxDrops then (r.TxDrops + v) % 2 ^ 64 else r.TxDrops := by
  unfold assignQueue
  split_ifs <;> first | rfl | simp_all +decide

theorem assignQueue_comm (m₁ m₂ : String) (v : Nat) (r : QueueStats) :
    assignQueue m₂ v (assignQueue m₁ v r) = assignQueue m₁ v (assignQueue m₂ v r) := by
  apply QueueStats.ext <;>
    simp only [assignQueue_QueueIndex, assignQueue_RxPackets, assignQueue_RxBytes,
      assignQueue_TxPackets, assignQueue_TxBytes, assignQueue_RxDrops, assignQueue_TxDrops] <;>
    split_ifs <;> rfl

/-- One guarded assignment of the innermost loop body. -/
theorem guarded_comm (c₁ c₂ : Prop) [Decidable c₁] [Decidable c₂] (m₁ m₂ : String) (v : Nat)
    (r : QueueStats) :
    (if c₂ then assignQueue m₂ v (if c₁ then assignQueue m₁ v r else r)
      else (if c₁ then assignQueue m₁ v r else r)) =
    (if c₁ then assignQueue m₁ v (if c₂ then assignQueue m₂ v r else r)
      else (if c₂ then assignQueue m₂ v r else r)) := by
  by_cases h₁ : c₁ <;> by_cases h₂ : c₂ <;> simp only [h₁, h₂, if_true, if_false]
  exact assignQueue_comm m₁ m₂ v r

theorem queueSourceLoop_guarded (name : String) (value : Nat) (q : Int) (m : String)
    (c : Prop) [Decidable c] (m' : String) :
    ∀ (l : List String) (r : QueueStats),
      (if c then assignQueue m value (queueSourceLoop name value q m' l r)
        else queueSourceLoop name value q m' l r) =
      queueSourceLoop name value q m' l (if c then assignQueue m value r else r)
  | [], r => rfl
  | src :: l, r => by
    simp only [queueSourceLoop, List.foldl_cons]
    have ih := queueSourceLoop_guarded name value q m c m' l
    simp only [queueSourceLoop] at ih
    rw [ih, guarded_comm]

theorem queueSourceLoop_comm (name : String) (value : Nat) (q : Int) (m₁ m₂ : String)
    (l₂ : List String) :
    ∀ (l₁ : List String) (r : QueueStats),
      queueSourceLoop name value q m₁ l₁ (queueSourceLoop name value q m₂ l₂ r) =
        queueSourceLoop name value q m₂ l₂ (queueSourceLoop name value q m₁ l₁ r)
  | [], r => rfl
  | src :: l₁, r => by
    have hstep : ∀ r', queueSourceLoop name value q m₁ (src :: l₁) r' =
        queueSourceLoop name value q m₁ l₁
          (if name = expectedName src q then assignQueue m₁ value r' else r') := fun _ => rfl
    rw [hstep, hstep, queueSourceLoop_guarded, queueSourceLoop_comm name value q m₁ m₂ l₂ l₁]

theorem queueTableLoop_perm (entries₁ entries₂ : List (String × List String))
    (hp : entries₁.Perm entries₂) (name : String) (value : Nat) (q : Int) (r : QueueStats) :
    queueTableLoop entries₁ name value q r = queueTableLoop entries₂ name value q r := by
  unfold queueTableLoop
  refine hp.foldl_eq' ?_ r
  intro x _ y _ z
  exact queueSourceLoop_comm name value q y.1 x.1 x.2 y.2 z

theorem expectedName_table (q : Int) :
    expectedName "rx_packets" q = queueKey "rx" q "packets" ∧
    expectedName "rx_bytes" q = queueKey "rx" q "bytes" ∧
    expectedName "tx_packets" q = queueKey "tx" q "packets" ∧
    expectedName "tx_bytes" q = queueKey "tx" q "bytes" ∧
    expectedName "rx_wqe_err" q = queueKey "rx" q "wqe_err" ∧
    expectedName "rx_buff_alloc_err" q = queueKey "rx" q "buff_alloc_err" ∧
    expectedName "tx_cqe_err" q = queueKey "tx" q "cqe_err" :=
  ⟨expectedName_eq "rx" "packets" (by decide) q, expectedName_eq "rx" "bytes" (by decide) q,
    expectedName_eq "tx" "packets" (by decide) q, expectedName_eq "tx" "bytes" (by decide) q,
    expectedName_eq "rx" "wqe_err" (by decide) q,
    expectedName_eq "rx" "buff_alloc_err" (by decide) q,
    expectedName_eq "tx" "cqe_err" (by decide) q⟩

/-- Two queue keys of the same queue with different direction or suffix differ. -/
theorem queueKey_ne (d₁ d₂ : String) (q : Int) (s₁ s₂ : String)
    (hlen : d₁.toList.length = d₂.toList.length) (hne : ¬ (d₁ = d₂ ∧ s₁ = s₂)) :
    queueKey d₁ q s₁ ≠ queueKey d₂ q s₂ :=
  fun h => hne (queueKey_inj d₁ d₂ q s₁ s₂ hlen h)

/-- The effect of the loop over the mapping table, in the listed order, on every field. -/
theorem queueTableLoop_listed (name : String) (value : Nat) (q : Int) (r : QueueStats) :
    queueTableLoop MLX5QueueMetricMapping name value q r =
      { QueueIndex := r.QueueIndex,
        RxPackets := if name = queueKey "rx" q "packets" then value else r.RxPackets,
        RxBytes := if name = queueKey "rx" q "bytes" then value else r.RxBytes,
        TxPackets := if name = queueKey "tx" q "packets" then value else r.TxPackets,
        TxBytes := if name = queueKey "tx" q "bytes" then value else r.TxBytes,
        RxDrops :=
          if name = queueKey "rx" q "wqe_err" ∨ name = queueKey "rx" q "buff_alloc_err" then
            (r.RxDrops + value) % 2 ^ 64
          else r.RxDrops,
        TxDrops :=
          if name = queueKey "tx" q "cqe_err" then (r.TxDrops + value) % 2 ^ 64
          else r.TxDrops } := by
  obtain ⟨e1, e2, e3, e4, e5, e6, e7⟩ := expectedName_table q
  have hne : queueKey "rx" q "wqe_err" ≠ queueKey "rx" q "buff_alloc_err" :=
    queueKey_ne _ _ q _ _ rfl (by decide)
  simp only [queueTableLoop, MLX5QueueMetricMapping, List.foldl_cons, List.foldl_nil,
    queueSourceLoop, e1, e2, e3, e4, e5, e6, e7]
  apply QueueStats.ext <;>
    simp only [apply_ite QueueStats.QueueIndex, apply_ite QueueStats.RxPackets,
      apply_ite QueueStats.RxBytes, apply_ite QueueStats.TxPackets,
      apply_ite QueueStats.TxBytes, apply_ite QueueStats.RxDrops,
      apply_ite QueueStats.TxDrops,
      assignQueue_QueueIndex, assignQueue_RxPackets, assignQueue_RxBytes,
      assignQueue_TxPackets, assignQueue_TxBytes, assignQueue_RxDrops, assignQueue_TxDrops] <;>
    simp +decide only [CounterRxPackets, CounterRxBytes, CounterTxPackets, CounterTxBytes,
      CounterRxDrops, CounterTxDrops, if_true, if_false, ite_self] <;>
    (split_ifs <;> simp_all)

/-! ## More on Go maps -/

theorem mapGet_mapSet {κ ν : Type} [DecidableEq κ] (k : κ) (v : ν) :
    ∀ (m : List (κ × ν)) (k' : κ),
      mapGet (mapSet m k v) k' = if k' = k then some v else mapGet m k'
  | [], k' => by simp [mapSet, mapGet]
  | (k₀, v₀) :: rest, k' => by
    by_cases hk : k = k₀
    · subst hk
      simp only [mapSet, if_true, mapGet]
      split_ifs <;> rfl
    · simp only [mapSet, hk, if_false, mapGet]
      rw [mapGet_mapSet k v rest k']
      by_cases hk' : k' = k₀
      · subst hk'
        have : k' ≠ k := fun h => hk h.symm
        simp [this]
      · simp [hk']

theorem mapKeys_mapSet {κ ν : Type} [DecidableEq κ] (k : κ) (v : ν) :
    ∀ (m : List (κ × ν)),
      mapKeys (mapSet m k v) = if k ∈ mapKeys m then mapKeys m else mapKeys m ++ [k]
  | [] => by simp [mapSet, mapKeys]
  | (k₀, v₀) :: rest => by
    by_cases hk : k = k₀
    · subst hk
      simp [mapSet, mapKeys]
    · have ih := mapKeys_mapSet k v rest
      simp only [mapKeys] at ih
      simp only [mapSet, hk, if_false, mapKeys, List.map_cons, List.mem_cons, false_or, ih]
      split_ifs <;> simp

theorem mapKeys_mapSet_nodup {κ ν : Type} [DecidableEq κ] (m : List (κ × ν)) (k : κ) (v : ν)
    (h : (mapKeys m).Nodup) : (mapKeys (mapSet m k v)).Nodup := by
  rw [mapKeys_mapSet]
  split_ifs with hk
  · exact h
  · exact List.Nodup.append h (List.nodup_singleton k) (by simpa using hk)

theorem mapGet_snoc {κ ν : Type} [DecidableEq κ] (k₀ : κ) (v₀ : ν) :
    ∀ (m : List (κ × ν)) (k : κ), k₀ ∉ mapKeys m →
      mapGet (m ++ [(k₀, v₀)]) k = if k = k₀ then some v₀ else mapGet m k
  | [], k, _ => by simp [mapGet]
  | (k₁, v₁) :: rest, k, h => by
    simp only [mapKeys, List.map_cons, List.mem_cons, not_or] at h
    have ih := mapGet_snoc k₀ v₀ rest k h.2
    by_cases hk : k = k₁
    · subst hk
      have : k ≠ k₀ := fun h' => h.1 h'.symm
      simp [mapGet, this]
    · simp only [List.cons_append, mapGet, hk, if_false]
      exact ih

theorem valOf_snoc (es : List (String × Nat)) (e : String × Nat) (h : e.1 ∉ mapKeys es)
    (k : String) : valOf (es ++ [e]) k = if k = e.1 then e.2 else valOf es k := by
  unfold valOf
  rw [show e = (e.1, e.2) from rfl, mapGet_snoc e.1 e.2 es k h]
  split_ifs <;> rfl

theorem valOf_absent (es : List (String × Nat)) (k : String) (h : k ∉ mapKeys es) :
    valOf es k = 0 := by
  unfold valOf
  rw [(mapGet_eq_none_iff es k).2 h]
  rfl

theorem valOf_perm (m₁ m₂ : List (String × Nat)) (hnd : (mapKeys m₁).Nodup) (hp : m₂.Perm m₁)
    (k : String) : valOf m₂ k = valOf m₁ k := by
  unfold valOf
  rw [mapGet_perm m₁ m₂ k hnd hp]

/-! ## The loop over the snapshot in `processMLX5QueueStats` -/

theorem queueStep_eq (s : DriverSched) (hs : s.Valid) (qm : List (Int × QueueStats))
    (e : String × Nat) :
    queueStep s qm e =
      match queueIndexOf e.1 with
      | none => qm
      | some q =>
        mapSet qm q (queueTableLoop MLX5QueueMetricMapping e.1 e.2 q
          (match mapGet qm q with
            | some r => r
            | none => newQueueStats q)) := by
  unfold queueStep queueIndexOf
  cases mlx5QueuePattern e.1 with
  | none => rfl
  | some g =>
    simp only
    cases Atoi g.2 with
    | none => rfl
    | some q =>
      simp only
      rw [queueTableLoop_perm _ _ (hs.queueTable e.1 MLX5QueueMetricMapping)]

theorem discovered_snoc (es : List (String × Nat)) (e : String × Nat) (q : Int) :
    discovered (es ++ [e]) q ↔ discovered es q ∨ queueIndexOf e.1 = some q := by
  unfold discovered
  constructor
  · rintro ⟨x, hx, hq⟩
    rcases List.mem_append.1 hx with hx | hx
    · exact Or.inl ⟨x, hx, hq⟩
    · simp only [List.mem_singleton] at hx
      subst hx
      exact Or.inr hq
  · rintro (⟨x, hx, hq⟩ | hq)
    · exact ⟨x, List.mem_append_left _ hx, hq⟩
    · exact ⟨e, List.mem_append_right _ (List.mem_singleton_self e), hq⟩

theorem discovered_perm (m₁ m₂ : List (String × Nat)) (hp : m₂.Perm m₁) (q : Int) :
    discovered m₂ q ↔ discovered m₁ q := by
  unfold discovered
  constructor
  · rintro ⟨x, hx, hq⟩
    exact ⟨x, hp.subset hx, hq⟩
  · rintro ⟨x, hx, hq⟩
    exact ⟨x, hp.symm.subset hx, hq⟩

/-- A key that does not denote queue `q` leaves the record of queue `q` as it is. -/
theorem queueRecord_frame (es : List (String × Nat)) (e : String × Nat)
    (hnd : e.1 ∉ mapKeys es) (q : Int) (h0 : 0 ≤ q) (h1 : q < 2 ^ 63)
    (hne : queueIndexOf e.1 ≠ some q) : queueRecord (es ++ [e]) q = queueRecord es q := by
  have hk : ∀ d, d = "rx" ∨ d = "tx" → ∀ sfx, valOf (es ++ [e]) (queueKey d q sfx)
      = valOf es (queueKey d q sfx) := by
    intro d hd sfx
    rw [valOf_snoc es e hnd, if_neg]
    intro heq
    exact hne (heq ▸ queueIndexOf_key d hd q h0 h1 sfx)
  simp only [queueRecord, hk "rx" (Or.inl rfl), hk "tx" (Or.inr rfl)]

/-- The record of a queue that no key of the snapshot denotes is the zero record. -/
theorem queueRecord_fresh (es : List (String × Nat)) (q : Int) (h0 : 0 ≤ q) (h1 : q < 2 ^ 63)
    (hnot : ¬ discovered es q) : queueRecord es q = newQueueStats q := by
  have hk : ∀ d, d = "rx" ∨ d = "tx" → ∀ sfx, valOf es (queueKey d q sfx) = 0 := by
    intro d hd sfx
    apply valOf_absent
    intro hmem
    obtain ⟨x, hx, hfst⟩ := List.mem_map.1 hmem
    exact hnot ⟨x, hx, hfst ▸ queueIndexOf_key d hd q h0 h1 sfx⟩
  simp only [queueRecord, newQueueStats, hk "rx" (Or.inl rfl), hk "tx" (Or.inr rfl)]
  rfl

/-- Visiting the key `e` updates the record of the queue it denotes to the record of the
snapshot extended by `e`. -/
theorem queueRecord_update (es : List (String × Nat)) (e : String × Nat)
    (hnd : e.1 ∉ mapKeys es) (hv : e.2 < 2 ^ 64) (hes : ∀ x ∈ es, x.2 < 2 ^ 64) (q : Int) :
    queueTableLoop MLX5QueueMetricMapping e.1 e.2 q (queueRecord es q)
      = queueRecord (es ++ [e]) q := by
  have habs : valOf es e.1 = 0 := valOf_absent es e.1 hnd
  have hne : queueKey "rx" q "wqe_err" ≠ queueKey "rx" q "buff_alloc_err" :=
    queueKey_ne _ _ q _ _ rfl (by decide)
  have hlt : ∀ k, valOf es k < 2 ^ 64 := by
    intro k
    unfold valOf
    cases hk : mapGet es k with
    | none => simp
    | some v => exact hes (k, v) (mem_of_mapGet_eq_some es k v hk)
  rw [queueTableLoop_listed]
  apply QueueStats.ext <;> simp only [queueRecord, valOf_snoc es e hnd]
  · by_cases h : e.1 = queueKey "rx" q "packets"
    · rw [if_pos h, if_pos h.symm]
    · rw [if_neg h, if_neg (fun h' => h h'.symm)]
  · by_cases h : e.1 = queueKey "rx" q "bytes"
    · rw [if_pos h, if_pos h.symm]
    · rw [if_neg h, if_neg (fun h' => h h'.symm)]
  · by_cases h : e.1 = queueKey "tx" q "packets"
    · rw [if_pos h, if_pos h.symm]
    · rw [if_neg h, if_neg (fun h' => h h'.symm)]
  · by_cases h : e.1 = queueKey "tx" q "bytes"
    · rw [if_pos h, if_pos h.symm]
    · rw [if_neg h, if_neg (fun h' => h h'.symm)]
  · have hb := hlt (queueKey "rx" q "buff_alloc_err")
    have hw := hlt (queueKey "rx" q "wqe_err")
    by_cases h : e.1 = queueKey "rx" q "wqe_err"
    · have h' : queueKey "rx" q "buff_alloc_err" ≠ e.1 := fun h' => hne (h.symm.trans h'.symm)
      rw [if_pos (Or.inl h), if_pos h.symm, if_neg h']
      rw [← h, habs]
      omega
    · by_cases h2 : e.1 = queueKey "rx" q "buff_alloc_err"
      · rw [if_pos (Or.inr h2), if_neg (fun h' => h h'.symm), if_pos h2.symm]
        rw [← h2, habs]
        omega
      · rw [if_neg (by tauto), if_neg (fun h' => h h'.symm), if_neg (fun h' => h2 h'.symm)]
  · by_cases h : e.1 = queueKey "tx" q "cqe_err"
    · rw [if_pos h, if_pos h.symm, ← h, habs]
      omega
    · rw [if_neg h, if_neg (fun h' => h h'.symm)]

theorem discovered_range (es : List (String × Nat)) (q : Int) (h : discovered es q) :
    0 ≤ q ∧ q < 2 ^ 63 := by
  obtain ⟨x, _, hq⟩ := h
  exact queueIndexOf_range x.1 q hq

theorem queueStep_inv (s : DriverSched) (hs : s.Valid) (es : List (String × Nat))
    (e : String × Nat) (hnd : e.1 ∉ mapKeys es) (hv : e.2 < 2 ^ 64)
    (hes : ∀ x ∈ es, x.2 < 2 ^ 64) (qm : List (Int × QueueStats)) (hinv : QueueInv es qm) :
    QueueInv (es ++ [e]) (queueStep s qm e) := by
  obtain ⟨hkeys, hsound, hcomplete⟩ := hinv
  rw [queueStep_eq s hs]
  cases hq : queueIndexOf e.1 with
  | none =>
    simp only
    refine ⟨hkeys, ?_, ?_⟩
    · intro q r hget
      obtain ⟨hd, hr⟩ := hsound q r hget
      obtain ⟨h0, h1⟩ := discovered_range es q hd
      refine ⟨(discovered_snoc es e q).2 (Or.inl hd), ?_⟩
      rw [queueRecord_frame es e hnd q h0 h1 (by rw [hq]; simp)]
      exact hr
    · intro q hd
      rcases (discovered_snoc es e q).1 hd with hd | hd
      · exact hcomplete q hd
      · rw [hq] at hd
        exact absurd hd (by simp)
  | some q₀ =>
    simp only
    obtain ⟨h0, h1⟩ := queueIndexOf_range e.1 q₀ hq
    have hold : (match mapGet qm q₀ with
        | some r => r
        | none => newQueueStats q₀) = queueRecord es q₀ := by
      cases hget : mapGet qm q₀ with
      | some r => exact (hsound q₀ r hget).2
      | none =>
        simp only
        rw [queueRecord_fresh es q₀ h0 h1]
        intro hd
        obtain ⟨r, hr⟩ := hcomplete q₀ hd
        rw [hget] at hr
        exact absurd hr (by simp)
    rw [hold, queueRecord_update es e hnd hv hes q₀]
    refine ⟨mapKeys_mapSet_nodup qm q₀ _ hkeys, ?_, ?_⟩
    · intro q r hget
      rw [mapGet_mapSet] at hget
      by_cases hqq : q = q₀
      · subst hqq
        rw [if_pos rfl] at hget
        simp only [Option.some.injEq] at hget
        exact ⟨(discovered_snoc es e q).2 (Or.inr hq), hget.symm⟩
      · rw [if_neg hqq] at hget
        obtain ⟨hd, hr⟩ := hsound q r hget
        obtain ⟨h0', h1'⟩ := discovered_range es q hd
        refine ⟨(discovered_snoc es e q).2 (Or.inl hd), ?_⟩
        rw [queueRecord_frame es e hnd q h0' h1' (by rw [hq]; simpa using fun h => hqq h.symm)]
        exact hr
    · intro q hd
      rw [mapGet_mapSet]
      by_cases hqq : q = q₀
      · exact ⟨_, if_pos hqq⟩
      · rw [if_neg hqq]
        rcases (discovered_snoc es e q).1 hd with hd | hd
        · exact hcomplete q hd
        · rw [hq] at hd
          simp only [Option.some.injEq] at hd
          exact absurd hd.symm hqq

theorem queueLoop_inv (s : DriverSched) (hs : s.Valid) :
    ∀ (es : List (String × Nat)), (mapKeys es).Nodup → (∀ x ∈ es, x.2 < 2 ^ 64) →
      QueueInv es (es.foldl (queueStep s) []) := by
  intro es
  induction es using List.reverseRecOn with
  | nil =>
    intro _ _
    refine ⟨List.nodup_nil, ?_, ?_⟩
    · intro q r h
      simp [mapGet] at h
    · rintro q ⟨x, hx, _⟩
      simp at hx
  | append_singleton es e ih =>
    intro hnd hv
    rw [List.foldl_append]
    simp only [List.foldl_cons, List.foldl_nil]
    have hnd' : (mapKeys es).Nodup ∧ e.1 ∉ mapKeys es := by
      simp only [mapKeys, List.map_append, List.map_cons, List.map_nil] at hnd
      rw [List.nodup_append] at hnd
      refine ⟨hnd.1, ?_⟩
      intro hmem
      exact hnd.2.2 hmem (List.mem_singleton_self _)
    exact queueStep_inv s hs es e hnd'.2 (hv e (List.mem_append_right _ (List.mem_singleton_self e)))
      (fun x hx => hv x (List.mem_append_left _ hx)) _
      (ih hnd'.1 (fun x hx => hv x (List.mem_append_left _ hx)))

/-! ## The result of `processMLX5QueueStats` -/

theorem queueRecord_perm (m₁ m₂ : List (String × Nat)) (hnd : (mapKeys m₁).Nodup)
    (hp : m₂.Perm m₁) (q : Int) : queueRecord m₂ q = queueRecord m₁ q := by
  simp only [queueRecord, valOf_perm m₁ m₂ hnd hp]

theorem rawOK_perm (m₁ m₂ : List (String × Nat)) (h : RawOK m₁) (hp : m₂.Perm m₁) : RawOK m₂ :=
  ⟨(hp.map Prod.fst).nodup_iff.2 h.1, fun e he => h.2 e (hp.subset he)⟩

/-- The records returned by `processMLX5QueueStats` are the records of the discovered queue
indices, and no queue index occurs twice. -/
theorem queue_result (s : DriverSched) (hs : s.Valid) (raw : List (String × Nat))
    (h : RawOK raw) :
    (∀ r, r ∈ processMLX5QueueStats s raw ↔ ∃ q, discovered raw q ∧ r = queueRecord raw q) ∧
      ((processMLX5QueueStats s raw).map QueueStats.QueueIndex).Nodup := by
  have hp := hs.queueRaw raw
  have hL := rawOK_perm raw _ h hp
  obtain ⟨hkeys, hsound, hcomplete⟩ := queueLoop_inv s hs (s.queueRaw raw) hL.1 hL.2
  have hpm := hs.queueMap ((s.queueRaw raw).foldl (queueStep s) [])
  constructor
  · intro r
    simp only [processMLX5QueueStats, List.mem_map]
    constructor
    · rintro ⟨⟨q, r'⟩, hmem, rfl⟩
      have hget := mapGet_eq_some_of_mem _ q r' hkeys (hpm.subset hmem)
      obtain ⟨hd, hr⟩ := hsound q r' hget
      exact ⟨q, (discovered_perm raw _ hp q).1 hd, hr.trans (queueRecord_perm raw _ h.1 hp q)⟩
    · rintro ⟨q, hd, rfl⟩
      obtain ⟨r', hget⟩ := hcomplete q ((discovered_perm raw _ hp q).2 hd)
      refine ⟨(q, r'), hpm.symm.subset (mem_of_mapGet_eq_some _ q r' hget), ?_⟩
      exact ((hsound q r' hget).2).trans (queueRecord_perm raw _ h.1 hp q)
  · simp only [processMLX5QueueStats, List.map_map]
    have hfst : (s.queueMap ((s.queueRaw raw).foldl (queueStep s) [])).map
        (QueueStats.QueueIndex ∘ Prod.snd) =
        (s.queueMap ((s.queueRaw raw).foldl (queueStep s) [])).map Prod.fst := by
      apply List.map_congr_left
      rintro ⟨q, r'⟩ hmem
      have hget := mapGet_eq_some_of_mem _ q r' hkeys (hpm.subset hmem)
      rw [(hsound q r' hget).2]
      rfl
    rw [hfst]
    exact (hpm.map Prod.fst).nodup_iff.2 hkeys

theorem eq_singleton_of_nodup {α : Type} (l : List α) (a : α) (hnd : l.Nodup)
    (h : ∀ x, x ∈ l ↔ x = a) : l = [a] := by
  have hp : l.Perm [a] :=
    (List.perm_ext_iff_of_nodup hnd (List.nodup_singleton a)).2
      (fun x => by rw [h x, List.mem_singleton])
  exact List.perm_singleton.1 hp

theorem queueScenario_ok : RawOK [("rx0_packets", 5), ("rx0_wqe_err", 1), ("tx0_packets", 7)] := by
  unfold RawOK mapKeys
  decide

theorem queueScenario_discovered (q : Int) :
    discovered [("rx0_packets", 5), ("rx0_wqe_err", 1), ("tx0_packets", 7)] q ↔ q = 0 := by
  have h1 : queueIndexOf "rx0_packets" = some 0 := by decide
  have h2 : queueIndexOf "rx0_wqe_err" = some 0 := by decide
  have h3 : queueIndexOf "tx0_packets" = some 0 := by decide
  unfold discovered
  simp only [List.mem_cons, List.mem_singleton, List.not_mem_nil, or_false, exists_eq_or_imp,
    exists_eq_left, h1, h2, h3, Option.some.injEq, or_self]
  exact eq_comm

/-- C2: for every well-formed snapshot and every visiting order of the maps, a record of the
result of `processMLX5QueueStats` for queue index `q` has packet and byte fields equal to
the values of the keys `rx<q>_packets`, `rx<q>_bytes`, `tx<q>_packets`, `tx<q>_bytes`
(0 when absent), `RxDrops` equal to the 64-bit sum of the values of `rx<q>_wqe_err` and
`rx<q>_buff_alloc_err`, and `TxDrops` equal to the value of `tx<q>_cqe_err`; the records
are the same for every visiting order and every listing of the snapshot; the snapshot
`rx0_packets:5, rx0_wqe_err:1, tx0_packets:7` gives the single record with queue index 0,
`RxPackets` 5, `RxDrops` 1, `TxPackets` 7 and every other field 0. -/
theorem C2_queue_record_fields (s : DriverSched) (hs : s.Valid) (raw : List (String × Nat))
    (h : RawOK raw) :
    (∀ r ∈ processMLX5QueueStats s raw,
      r.RxPackets = valOf raw (queueKey "rx" r.QueueIndex "packets") ∧
      r.RxBytes = valOf raw (queueKey "rx" r.QueueIndex "bytes") ∧
      r.TxPackets = valOf raw (queueKey "tx" r.QueueIndex "packets") ∧
      r.TxBytes = valOf raw (queueKey "tx" r.QueueIndex "bytes") ∧
      r.RxDrops = (valOf raw (queueKey "rx" r.QueueIndex "wqe_err")
        + valOf raw (queueKey "rx" r.QueueIndex "buff_alloc_err")) % 2 ^ 64 ∧
      r.TxDrops = valOf raw (queueKey "tx" r.QueueIndex "cqe_err")) ∧
    (∀ (s' : DriverSched) (raw' : List (String × Nat)), s'.Valid → raw'.Perm raw →
      ∀ r, r ∈ processMLX5QueueStats s' raw' ↔ r ∈ processMLX5QueueStats s raw) ∧
    (∀ s' : DriverSched, s'.Valid →
      processMLX5QueueStats s' [("rx0_packets", 5), ("rx0_wqe_err", 1), ("tx0_packets", 7)] =
        [{ QueueIndex := 0, RxPackets := 5, RxBytes := 0, TxPackets := 7, TxBytes := 0,
           RxDrops := 1, TxDrops := 0 }]) := by
  refine ⟨?_, ?_, ?_⟩
  · intro r hr
    obtain ⟨q, _, rfl⟩ := ((queue_result s hs raw h).1 r).1 hr
    exact ⟨rfl, rfl, rfl, rfl, rfl, rfl⟩
  · intro s' raw' hs' hp r
    rw [(queue_result s hs raw h).1 r, (queue_result s' hs' raw' (rawOK_perm raw raw' h hp)).1 r]
    constructor
    · rintro ⟨q, hd, rfl⟩
      exact ⟨q, (discovered_perm raw raw' hp q).1 hd, queueRecord_perm raw raw' h.1 hp q⟩
    · rintro ⟨q, hd, rfl⟩
      exact ⟨q, (discovered_perm raw raw' hp q).2 hd, (queueRecord_perm raw raw' h.1 hp q).symm⟩
  · intro s' hs'
    obtain ⟨hmem, hnd⟩ := queue_result s' hs' _ queueScenario_ok
    apply eq_singleton_of_nodup _ _ (List.Nodup.of_map _ hnd)
    intro r
    rw [hmem r]
    constructor
    · rintro ⟨q, hd, rfl⟩
      rw [(queueScenario_discovered q).1 hd]
      decide
    · rintro rfl
      exact ⟨0, (queueScenario_discovered 0).2 rfl, by decide⟩

/-- Witness of C2: under the reversed visiting order the scenario snapshot gives one record,
and that record reads its `RxDrops` from `rx0_wqe_err`. -/
theorem C2_queue_record_fields_witness :
    processMLX5QueueStats DriverSched.reversed
        [("rx0_packets", 5), ("rx0_wqe_err", 1), ("tx0_packets", 7)] =
      [{ QueueIndex := 0, RxPackets := 5, RxBytes := 0, TxPackets := 7, TxBytes := 0,
         RxDrops := 1, TxDrops := 0 }] :=
  (C2_queue_record_fields DriverSched.listed driverSched_listed_valid
    [("rx0_packets", 5), ("rx0_wqe_err", 1), ("tx0_packets", 7)] queueScenario_ok).2.2
    DriverSched.reversed driverSched_reversed_valid

theorem queueIndexOf_none_of_pattern (name : String) (h : mlx5QueuePattern name = none) :
    queueIndexOf name = none := by
  unfold queueIndexOf
  rw [h]

theorem discovered_cons_unmatched (raw : List (String × Nat)) (k : String) (v : Nat)
    (hk : queueIndexOf k = none) (q : Int) :
    discovered ((k, v) :: raw) q ↔ discovered raw q := by
  unfold discovered
  constructor
  · rintro ⟨x, hx, hq⟩
    rcases List.mem_cons.1 hx with rfl | hx
    · rw [hk] at hq
      exact absurd hq (by simp)
    · exact ⟨x, hx, hq⟩
  · rintro ⟨x, hx, hq⟩
    exact ⟨x, List.mem_cons_of_mem _ hx, hq⟩

theorem queueRecord_cons_unmatched (raw : List (String × Nat)) (k : String) (v : Nat)
    (hk : queueIndexOf k = none) (q : Int) (h0 : 0 ≤ q) (h1 : q < 2 ^ 63) :
    queueRecord ((k, v) :: raw) q = queueRecord raw q := by
  have hkey : ∀ d, d = "rx" ∨ d = "tx" → ∀ sfx, valOf ((k, v) :: raw) (queueKey d q sfx)
      = valOf raw (queueKey d q sfx) := by
    intro d hd sfx
    have hne : queueKey d q sfx ≠ k := by
      intro heq
      rw [← heq, queueIndexOf_key d hd q h0 h1 sfx] at hk
      exact absurd hk (by simp)
    simp only [valOf, mapGet, hne, if_false]
  simp only [queueRecord, hkey "rx" (Or.inl rfl), hkey "tx" (Or.inr rfl)]

/-- C3: for every well-formed snapshot and every visiting order of the maps,
`processMLX5QueueStats` returns exactly one record for each queue index discovered in the
snapshot (some raw key matches the queue pattern and its digits parse to the index) and no
other record; the queue indices of the result are pairwise distinct and non-negative; the
loop body leaves the queue map as it is on a key that does not match the pattern, and adding
such a key to the snapshot does not change the set of records; a snapshot without a
matching key gives the empty result. -/
theorem C3_one_record_per_discovered_queue (s : DriverSched) (hs : s.Valid)
    (raw : List (String × Nat)) (h : RawOK raw) :
    (∀ q, discovered raw q →
      ∃ r ∈ processMLX5QueueStats s raw, r.QueueIndex = q ∧
        ∀ r' ∈ processMLX5QueueStats s raw, r'.QueueIndex = q → r' = r) ∧
    (∀ r ∈ processMLX5QueueStats s raw, discovered raw r.QueueIndex) ∧
    ((processMLX5QueueStats s raw).map QueueStats.QueueIndex).Nodup ∧
    (∀ r ∈ processMLX5QueueStats s raw, 0 ≤ r.QueueIndex) ∧
    (∀ (queueMap : List (Int × QueueStats)) (e : String × Nat),
      mlx5QueuePattern e.1 = none → queueStep s queueMap e = queueMap) ∧
    (∀ (s' : DriverSched) (k : String) (v : Nat), s'.Valid → mlx5QueuePattern k = none →
      k ∉ mapKeys raw → v < 2 ^ 64 →
      ∀ r, r ∈ processMLX5QueueStats s' ((k, v) :: raw) ↔ r ∈ processMLX5QueueStats s raw) ∧
    ((∀ e ∈ raw, mlx5QueuePattern e.1 = none) → processMLX5QueueStats s raw = []) := by
  obtain ⟨hmem, hnd⟩ := queue_result s hs raw h
  refine ⟨?_, ?_, hnd, ?_, ?_, ?_, ?_⟩
  · intro q hd
    refine ⟨queueRecord raw q, (hmem _).2 ⟨q, hd, rfl⟩, rfl, ?_⟩
    intro r' hr' hq
    obtain ⟨q', _, rfl⟩ := (hmem r').1 hr'
    have : q' = q := hq
    rw [this]
  · intro r hr
    obtain ⟨q, hd, rfl⟩ := (hmem r).1 hr
    exact hd
  · intro r hr
    obtain ⟨q, hd, rfl⟩ := (hmem r).1 hr
    exact (discovered_range raw q hd).1
  · intro queueMap e he
    unfold queueStep
    rw [he]
  · intro s' k v hs' hk hnot hv r
    have hraw' : RawOK ((k, v) :: raw) := by
      refine ⟨?_, ?_⟩
      · simp only [mapKeys, List.map_cons, List.nodup_cons]
        exact ⟨hnot, h.1⟩
      · intro e he
        rcases List.mem_cons.1 he with rfl | he
        · exact hv
        · exact h.2 e he
    have hk' := queueIndexOf_none_of_pattern k hk
    rw [(queue_result s' hs' _ hraw').1 r, hmem r]
    constructor
    · rintro ⟨q, hd, rfl⟩
      have hd' := (discovered_cons_unmatched raw k v hk' q).1 hd
      obtain ⟨h0, h1⟩ := discovered_range raw q hd'
      exact ⟨q, hd', queueRecord_cons_unmatched raw k v hk' q h0 h1⟩
    · rintro ⟨q, hd, rfl⟩
      obtain ⟨h0, h1⟩ := discovered_range raw q hd
      exact ⟨q, (discovered_cons_unmatched raw k v hk' q).2 hd,
        (queueRecord_cons_unmatched raw k v hk' q h0 h1).symm⟩
  · intro hnone
    apply List.eq_nil_iff_forall_not_mem.2
    intro r hr
    obtain ⟨q, ⟨x, hx, hq⟩, _⟩ := (hmem r).1 hr
    rw [queueIndexOf_none_of_pattern x.1 (hnone x hx)] at hq
    exact absurd hq (by simp)

/-- The snapshot with two keys of queue 3, one key written with leading zeros, one key whose
digits exceed the `int` range and one key outside the pattern is well formed. -/
theorem mixedScenario_ok :
    RawOK [("rx3_packets", 10), ("tx3_bytes", 20), ("tx007_cqe_err", 1),
      ("rx99999999999999999999_bytes", 4), ("rx_packets", 9)] := by
  unfold RawOK mapKeys
  decide

/-- Witness of C3: keys of queues 3 and 7 (the latter written `007`), a key whose digits do
not parse and a key outside the pattern give exactly the queue indices 3 and 7. -/
theorem C3_one_record_per_discovered_queue_witness :
    ((processMLX5QueueStats DriverSched.listed
      [("rx3_packets", 10), ("tx3_bytes", 20), ("tx007_cqe_err", 1),
        ("rx99999999999999999999_bytes", 4), ("rx_packets", 9)]).map
          QueueStats.QueueIndex).Nodup ∧
    (processMLX5QueueStats DriverSched.listed
      [("rx3_packets", 10), ("tx3_bytes", 20), ("tx007_cqe_err", 1),
        ("rx99999999999999999999_bytes", 4), ("rx_packets", 9)]).map QueueStats.QueueIndex
      = [3, 7] :=
  ⟨(C3_one_record_per_discovered_queue DriverSched.listed driverSched_listed_valid
    [("rx3_packets", 10), ("tx3_bytes", 20), ("tx007_cqe_err", 1),
      ("rx99999999999999999999_bytes", 4), ("rx_packets", 9)] mixedScenario_ok).2.2.1,
    by decide⟩

/-! ## Raw pass-through -/

theorem mapSet_fresh {κ ν : Type} [DecidableEq κ] (k : κ) (v : ν) :
    ∀ (m : List (κ × ν)), k ∉ mapKeys m → mapSet m k v = m ++ [(k, v)]
  | [], _ => rfl
  | (k₀, v₀) :: rest, h => by
    simp only [mapKeys, List.map_cons, List.mem_cons, not_or] at h
    simp only [mapSet, h.1, if_false, List.cons_append, mapSet_fresh k v rest h.2]

theorem rawName_inj (a b : String) (h : "raw_" ++ a = "raw_" ++ b) : a = b := by
  have h' := congrArg String.data h
  simp only [String.data_append] at h'
  exact String.ext (List.append_cancel_left h')

/-- The copy loop of `processMLX5Stats` adds one entry for every visited key. -/
theorem rawCopy_eq_map :
    ∀ (es : List (String × Nat)), (mapKeys es).Nodup →
      es.foldl (fun m e => mapSet m ("raw_" ++ e.1) e.2) [] =
        es.map (fun e => ("raw_" ++ e.1, e.2)) := by
  intro es
  induction es using List.reverseRecOn with
  | nil => intro _; rfl
  | append_singleton es e ih =>
    intro hnd
    simp only [mapKeys, List.map_append, List.map_cons, List.map_nil] at hnd
    rw [List.nodup_append] at hnd
    rw [List.foldl_append, List.map_append]
    simp only [List.foldl_cons, List.foldl_nil, List.map_cons, List.map_nil]
    rw [ih hnd.1]
    apply mapSet_fresh
    intro hmem
    simp only [mapKeys, List.map_map, List.mem_map, Function.comp] at hmem
    obtain ⟨x, hx, heq⟩ := hmem
    have hxe : x.1 = e.1 := rawName_inj _ _ heq
    exact hnd.2.2 (List.mem_map.2 ⟨x, hx, hxe⟩) (List.mem_singleton_self _)

theorem processDriverStats_driverSpecific (s : DriverSched) (hs : s.Valid)
    (raw : List (String × Nat)) (h : RawOK raw) :
    (ProcessDriverStats s "mlx5_core" raw).DriverSpecific =
      (s.rawCopy raw).map (fun e => ("raw_" ++ e.1, e.2)) := by
  have hd : ("mlx5_core" : String) = DriverMLX5 := rfl
  simp only [ProcessDriverStats, hd, if_true, processMLX5Stats, processMLX5CustomStats]
  exact rawCopy_eq_map _ (rawOK_perm raw _ h (hs.rawCopy raw)).1

/-- C4: for driver type `mlx5_core`, every well-formed snapshot and every visiting order of
the maps, the `DriverSpecific` map has exactly one entry per raw key: it maps `raw_` + k to
the value of k for every raw key k, whatever k is, every key of it is `raw_` + k for a raw
key k, no key occurs twice, and it has as many entries as the snapshot. -/
theorem C4_raw_pass_through_one_entry_per_key (s : DriverSched) (hs : s.Valid)
    (raw : List (String × Nat)) (h : RawOK raw) :
    (∀ k v, mapGet raw k = some v →
      mapGet (ProcessDriverStats s "mlx5_core" raw).DriverSpecific ("raw_" ++ k) = some v) ∧
    (∀ k', k' ∈ mapKeys (ProcessDriverStats s "mlx5_core" raw).DriverSpecific →
      ∃ k ∈ mapKeys raw, k' = "raw_" ++ k) ∧
    (mapKeys (ProcessDriverStats s "mlx5_core" raw).DriverSpecific).Nodup ∧
    (ProcessDriverStats s "mlx5_core" raw).DriverSpecific.length = raw.length := by
  rw [processDriverStats_driverSpecific s hs raw h]
  have hp := hs.rawCopy raw
  have hL := rawOK_perm raw _ h hp
  have hnd : (mapKeys ((s.rawCopy raw).map (fun e => ("raw_" ++ e.1, e.2)))).Nodup := by
    simp only [mapKeys, List.map_map]
    have hkeys : (List.map ((Prod.fst ∘ fun e : String × Nat => ("raw_" ++ e.1, e.2))) (s.rawCopy raw))
        = (mapKeys (s.rawCopy raw)).map (fun k => "raw_" ++ k) := by
      simp [mapKeys, List.map_map, Function.comp]
    rw [hkeys]
    exact hL.1.map (fun a b hab => rawName_inj a b hab)
  refine ⟨?_, ?_, hnd, ?_⟩
  · intro k v hget
    apply mapGet_eq_some_of_mem _ _ _ hnd
    exact List.mem_map.2 ⟨(k, v), hp.symm.subset (mem_of_mapGet_eq_some raw k v hget), rfl⟩
  · intro k' hk'
    simp only [mapKeys, List.map_map, List.mem_map, Function.comp] at hk'
    obtain ⟨x, hx, rfl⟩ := hk'
    exact ⟨x.1, List.mem_map.2 ⟨x, hp.subset hx, rfl⟩, rfl⟩
  · rw [List.length_map]
    exact hp.length_eq

/-- The snapshot with one key of each kind (basic, physical, queue, unmapped) is well formed. -/
theorem passThroughScenario_ok :
    RawOK [("rx_packets", 100), ("rx_bytes_phy", 7), ("rx0_packets", 5), ("vendor_x", 3)] := by
  unfold RawOK mapKeys
  decide

/-- Witness of C4: a snapshot with a basic, a physical, a queue and an unmapped key gives four
pass-through entries. -/
theorem C4_raw_pass_through_one_entry_per_key_witness :
    (ProcessDriverStats DriverSched.reversed "mlx5_core"
      [("rx_packets", 100), ("rx_bytes_phy", 7), ("rx0_packets", 5),
        ("vendor_x", 3)]).DriverSpecific.length = 4 ∧
    mapGet (ProcessDriverStats DriverSched.reversed "mlx5_core"
      [("rx_packets", 100), ("rx_bytes_phy", 7), ("rx0_packets", 5),
        ("vendor_x", 3)]).DriverSpecific ("raw_" ++ "rx_packets") = some 100 :=
  ⟨(C4_raw_pass_through_one_entry_per_key DriverSched.reversed driverSched_reversed_valid
      [("rx_packets", 100), ("rx_bytes_phy", 7), ("rx0_packets", 5), ("vendor_x", 3)]
      passThroughScenario_ok).2.2.2,
    (C4_raw_pass_through_one_entry_per_key DriverSched.reversed driverSched_reversed_valid
      [("rx_packets", 100), ("rx_bytes_phy", 7), ("rx0_packets", 5), ("vendor_x", 3)]
      passThroughScenario_ok).1 "rx_packets" 100 (by decide)⟩

/-! ## Drivers without a mapping table -/

/-- C5, as stated, fails: for the driver identifier `ena` and the snapshot `rx_packets:1` the
`DriverSpecific` map does not carry the raw key under its prefixed name. -/
theorem C5_counterexample :
    ¬ (∀ k v, mapGet [("rx_packets", 1)] k = some v →
      mapGet (ProcessDriverStats DriverSched.listed "ena" [("rx_packets", 1)]).DriverSpecific
        ("raw_" ++ k) = some v) := by
  intro h
  exact absurd (h "rx_packets" 1 (by decide)) (by decide)

/-- C5, amended: for every driver identifier other than `mlx5_core` and every snapshot,
`ProcessDriverStats` returns all six basic counters 0, no physical record, no queue record
and an empty `DriverSpecific` map. -/
theorem C5_unmapped_driver_yields_empty_stats (s : DriverSched) (driverType : String)
    (rawStats : List (String × Nat)) (h : driverType ≠ "mlx5_core") :
    ProcessDriverStats s driverType rawStats =
      { Basic :=
          { RxPackets := 0, RxBytes := 0, RxDrops := 0, TxPackets := 0, TxBytes := 0,
            TxDrops := 0 },
        Physical := none,
        PerQueue := [],
        DriverSpecific := [] } := by
  have hd : driverType ≠ DriverMLX5 := h
  simp only [ProcessDriverStats, hd, if_false]

/-- Witness of C5, amended: the driver identifier `ena` with a non-empty snapshot. -/
theorem C5_unmapped_driver_yields_empty_stats_witness :
    (ProcessDriverStats DriverSched.listed "ena"
      [("rx_packets", 100), ("rx0_packets", 5)]).DriverSpecific = [] ∧
    (ProcessDriverStats DriverSched.listed "ena"
      [("rx_packets", 100), ("rx0_packets", 5)]).Physical = none :=
  ⟨congrArg ProcessedStats.DriverSpecific
      (C5_unmapped_driver_yields_empty_stats DriverSched.listed "ena"
        [("rx_packets", 100), ("rx0_packets", 5)] (by decide)),
    congrArg ProcessedStats.Physical
      (C5_unmapped_driver_yields_empty_stats DriverSched.listed "ena"
        [("rx_packets", 100), ("rx0_packets", 5)] (by decide))⟩

/-! ## Driver resolution -/

/-- C6: `GetNICInfo` succeeds exactly when the driver-info query succeeds and reports the
driver name `mlx5_core` or `ena`; when the query reports any other driver name the result
is an error whose message is `unsupported driver: `, that name, and
` (only mlx5 and ena drivers are supported)`; on success `DriverType` is the reported
driver name and `Version` the reported version. -/
theorem C6_driver_allow_list (DriverInfo : String → Except String DrvInfo) (linkName : String) :
    ((∃ nic, GetNICInfo DriverInfo linkName = Except.ok nic) ↔
      ∃ info, DriverInfo linkName = Except.ok info ∧
        (info.Driver = "mlx5_core" ∨ info.Driver = "ena")) ∧
    (∀ info, DriverInfo linkName = Except.ok info →
      info.Driver ≠ "mlx5_core" → info.Driver ≠ "ena" →
      GetNICInfo DriverInfo linkName = Except.error
        ("unsupported driver: " ++ info.Driver ++ " (only mlx5 and ena drivers are supported)")) ∧
    (∀ info nic, DriverInfo linkName = Except.ok info →
      GetNICInfo DriverInfo linkName = Except.ok nic →
      nic.DriverType = info.Driver ∧ nic.Version = info.Version) := by
  unfold GetNICInfo
  cases hq : DriverInfo linkName with
  | error err =>
    refine ⟨⟨?_, ?_⟩, ?_, ?_⟩
    · rintro ⟨nic, hnic⟩
      exact absurd hnic (by simp)
    · rintro ⟨info, hinfo, _⟩
      exact absurd hinfo (by simp)
    · intro info hinfo
      exact absurd hinfo (by simp)
    · intro info nic hinfo
      exact absurd hinfo (by simp)
  | ok info =>
    simp only
    by_cases hdrv : info.Driver ≠ "mlx5_core" ∧ info.Driver ≠ "ena"
    · rw [if_pos hdrv]
      refine ⟨⟨?_, ?_⟩, ?_, ?_⟩
      · rintro ⟨nic, hnic⟩
        exact absurd hnic (by simp)
      · rintro ⟨info', hinfo, hor⟩
        simp only [Except.ok.injEq] at hinfo
        subst hinfo
        rcases hor with h | h
        · exact absurd h hdrv.1
        · exact absurd h hdrv.2
      · intro info' hinfo _ _
        simp only [Except.ok.injEq] at hinfo
        subst hinfo
        rfl
      · intro info' nic _ hnic
        exact absurd hnic (by simp)
    · rw [if_neg hdrv]
      have hor : info.Driver = "mlx5_core" ∨ info.Driver = "ena" := by
        by_cases h1 : info.Driver = "mlx5_core"
        · exact Or.inl h1
        · by_cases h2 : info.Driver = "ena"
          · exact Or.inr h2
          · exact absurd ⟨h1, h2⟩ hdrv
      refine ⟨⟨fun _ => ⟨info, rfl, hor⟩, fun _ => ⟨_, rfl⟩⟩, ?_, ?_⟩
      · intro info' hinfo h1 h2
        simp only [Except.ok.injEq] at hinfo
        subst hinfo
        rcases hor with h | h
        · exact absurd h h1
        · exact absurd h h2
      · intro info' nic hinfo hnic
        simp only [Except.ok.injEq] at hinfo hnic
        subst hinfo
        subst hnic
        exact ⟨rfl, rfl⟩

/-! ## The descriptor cache -/

theorem getOrCreateMetricDesc_cached (metrics : List (String × Desc)) (name help : String)
    (labels : List String) (desc : Desc) (h : mapGet metrics name = some desc) :
    getOrCreateMetricDesc metrics name help labels = (desc, metrics) := by
  unfold getOrCreateMetricDesc
  rw [h]

/-- C10: for every cache, name and two pairs of help text and labels, two successive calls of
`getOrCreateMetricDesc` with the same name return the same descriptor, the second call
leaves the cache as the first call left it, the cache then holds that descriptor under the
name, a cache without a repeated name stays so, a call for a cached name returns the cached
descriptor and leaves the cache as it is, and no call changes the entry of another name. -/
theorem C10_getOrCreateMetricDesc_idempotent (metrics : List (String × Desc))
    (name help₁ help₂ : String) (labels₁ labels₂ : List String) :
    (getOrCreateMetricDesc (getOrCreateMetricDesc metrics name help₁ labels₁).2 name help₂
        labels₂).1 = (getOrCreateMetricDesc metrics name help₁ labels₁).1 ∧
    (getOrCreateMetricDesc (getOrCreateMetricDesc metrics name help₁ labels₁).2 name help₂
        labels₂).2 = (getOrCreateMetricDesc metrics name help₁ labels₁).2 ∧
    mapGet (getOrCreateMetricDesc metrics name help₁ labels₁).2 name =
      some (getOrCreateMetricDesc metrics name help₁ labels₁).1 ∧
    ((mapKeys metrics).Nodup →
      (mapKeys (getOrCreateMetricDesc metrics name help₁ labels₁).2).Nodup) ∧
    (∀ desc, mapGet metrics name = some desc →
      (getOrCreateMetricDesc metrics name help₁ labels₁).1 = desc ∧
      (getOrCreateMetricDesc metrics name help₁ labels₁).2 = metrics) ∧
    (∀ other, other ≠ name →
      mapGet (getOrCreateMetricDesc metrics name help₁ labels₁).2 other = mapGet metrics other) := by
  have hcached : mapGet (getOrCreateMetricDesc metrics name help₁ labels₁).2 name =
      some (getOrCreateMetricDesc metrics name help₁ labels₁).1 := by
    unfold getOrCreateMetricDesc
    cases hget : mapGet metrics name with
    | some desc => exact hget
    | none =>
      simp only
      rw [mapGet_mapSet, if_pos rfl]
  have hsecond := getOrCreateMetricDesc_cached _ name help₂ labels₂ _ hcached
  refine ⟨?_, ?_, hcached, ?_, ?_, ?_⟩
  · rw [hsecond]
  · rw [hsecond]
  · intro hnd
    unfold getOrCreateMetricDesc
    cases mapGet metrics name with
    | some desc => exact hnd
    | none => exact mapKeys_mapSet_nodup metrics name _ hnd
  · intro desc hget
    unfold getOrCreateMetricDesc
    rw [hget]
    exact ⟨rfl, rfl⟩
  · intro other hne
    unfold getOrCreateMetricDesc
    cases mapGet metrics name with
    | some desc => rfl
    | none =>
      simp only
      rw [mapGet_mapSet, if_neg hne]

/-! ## The scrape cycle -/

theorem collectSched_listed_valid : CollectSched.listed.Valid :=
  ⟨driverSched_listed_valid, fun _ => List.Perm.refl _, fun _ _ => List.Perm.refl _,
    fun _ => List.Perm.refl _⟩

theorem collectSched_reversed_valid : CollectSched.reversed.Valid :=
  ⟨driverSched_reversed_valid, fun l => List.reverse_perm l, fun _ l => List.reverse_perm l,
    fun l => List.reverse_perm l⟩

theorem mem_mapSet {κ ν : Type} [DecidableEq κ] (k : κ) (v : ν) :
    ∀ (m : List (κ × ν)) (e : κ × ν), e ∈ mapSet m k v → e ∈ m ∨ e = (k, v)
  | [], e, h => by
    simp only [mapSet, List.mem_singleton] at h
    exact Or.inr h
  | (k₀, v₀) :: rest, e, h => by
    by_cases hk : k = k₀
    · subst hk
      simp only [mapSet, if_true, List.mem_cons] at h
      rcases h with h | h
      · exact Or.inr h
      · exact Or.inl (List.mem_cons_of_mem _ h)
    · simp only [mapSet, hk, if_false, List.mem_cons] at h
      rcases h with h | h
      · exact Or.inl (h ▸ List.mem_cons_self _ _)
      · rcases mem_mapSet k v rest e h with h | h
        · exact Or.inl (List.mem_cons_of_mem _ h)
        · exact Or.inr h

theorem metricSchema_names :
    ∀ r ∈ metricSchema, ∀ r' ∈ metricSchema, r.1 = r'.1 → r = r' := by
  decide

theorem metricSchema_desc :
    ∀ r ∈ metricSchema, (NewDesc (BuildFQName "nic" "" r.1) r.2.1 r.2.2).err = false := by
  decide

/-- On a cache that satisfies its invariant, a request of the schema is answered with the
descriptor of that request, and the invariant is kept. -/
theorem getOrCreateMetricDesc_schema (metrics : List (String × Desc)) (h : CacheOK metrics)
    (name help : String) (labels : List String) (hr : (name, help, labels) ∈ metricSchema) :
    (getOrCreateMetricDesc metrics name help labels).1 =
        NewDesc (BuildFQName "nic" "" name) help labels ∧
      CacheOK (getOrCreateMetricDesc metrics name help labels).2 := by
  unfold getOrCreateMetricDesc
  cases hget : mapGet metrics name with
  | some desc =>
    refine ⟨?_, h⟩
    obtain ⟨r, hmem, heq⟩ := h _ (mem_of_mapGet_eq_some metrics name desc hget)
    simp only [Prod.mk.injEq] at heq
    have hrr : r = (name, help, labels) := metricSchema_names r hmem _ hr heq.1.symm
    rw [heq.2, hrr]
  | none =>
    refine ⟨rfl, ?_⟩
    intro e he
    rcases mem_mapSet name _ metrics e he with he | he
    · exact h e he
    · exact ⟨(name, help, labels), hr, he⟩

theorem send_schema (st : Scrape) (hst : st.Good) (name help : String) (labels : List String)
    (hr : (name, help, labels) ∈ metricSchema) (valType : ValueType) (value : Nat)
    (labelValues : List String) (hlen : labelValues.length = labels.length) :
    (send st name help labels valType value labelValues).Good ∧
      (send st name help labels valType value labelValues).ch =
        st.ch ++ [sampleOf name help labels valType value labelValues] := by
  obtain ⟨hdesc, hcache⟩ := getOrCreateMetricDesc_schema st.metrics hst.1 name help labels hr
  have herr := metricSchema_desc _ hr
  simp only at herr
  have hnew : NewConstMetric (NewDesc (BuildFQName "nic" "" name) help labels) valType value
      labelValues = Except.ok (sampleOf name help labels valType value labelValues) := by
    unfold NewConstMetric
    rw [herr]
    have hl : labelValues.length =
        (NewDesc (BuildFQName "nic" "" name) help labels).variableLabels.length := hlen
    simp only [hl, ne_eq, not_true_eq_false, if_false, sampleOf, Bool.false_eq_true]
  unfold send
  rw [hst.2, hdesc, hnew]
  exact ⟨⟨hcache, rfl⟩, rfl⟩

/-- A loop of `send` over entries whose names lie in the schema. -/
theorem sendLoop_schema (rename : String → String) (help : String) (labels : List String)
    (valType : ValueType) (labelValues : List String) (hlen : labelValues.length = labels.length) :
    ∀ (entries : List (String × Nat)) (st : Scrape), st.Good →
      (∀ e ∈ entries, (rename e.1, help, labels) ∈ metricSchema) →
      (entries.foldl (fun st e => send st (rename e.1) help labels valType e.2 labelValues)
          st).Good ∧
        (entries.foldl (fun st e => send st (rename e.1) help labels valType e.2 labelValues)
          st).ch = st.ch ++ entries.map
            (fun e => sampleOf (rename e.1) help labels valType e.2 labelValues)
  | [], st, hst, _ => ⟨hst, by simp⟩
  | e :: rest, st, hst, hmem => by
    obtain ⟨hgood, hch⟩ := send_schema st hst (rename e.1) help labels
      (hmem e (List.mem_cons_self _ _)) valType e.2 labelValues hlen
    obtain ⟨hgood', hch'⟩ := sendLoop_schema rename help labels valType labelValues hlen rest _
      hgood (fun x hx => hmem x (List.mem_cons_of_mem _ hx))
    simp only [List.foldl_cons, List.map_cons]
    refine ⟨hgood', ?_⟩
    rw [hch', hch, List.append_assoc]
    rfl

theorem queueNames_schema :
    ∀ n ∈ ["queue_rx_packets", "queue_rx_bytes", "queue_rx_drops", "queue_tx_packets",
        "queue_tx_bytes", "queue_tx_drops"],
      (id n, "Per-queue network interface statistic", ["interface", "driver", "queue"])
        ∈ metricSchema := by
  decide

theorem basicNames_schema :
    ∀ n ∈ ["rx_packets", "rx_bytes", "rx_drops", "tx_packets", "tx_bytes", "tx_drops"],
      (id n, "Basic network interface statistic", ["interface", "driver"]) ∈ metricSchema := by
  decide

theorem phyNames_schema :
    ∀ n ∈ ["rx_bytes", "tx_bytes", "rx_packets", "tx_packets", "rx_discards", "tx_discards",
        "rx_pause_ctrl", "tx_pause_ctrl"],
      ((fun x => "phy_" ++ x) n, "PHY drops for network interface", ["interface", "driver"])
        ∈ metricSchema := by
  decide

theorem exportQueues_samples (ifaceName driverType : String) :
    ∀ (queues : List QueueStats) (order : Nat → RangeOrder (String × Nat)) (st : Scrape),
      (∀ i, (order i).Valid) → st.Good →
      (exportQueues order ["interface", "driver"] [ifaceName, driverType] queues st).Good ∧
        (exportQueues order ["interface", "driver"] [ifaceName, driverType] queues st).ch =
          st.ch ++ queueSamples order [ifaceName, driverType] queues
  | [], order, st, _, hst => ⟨hst, by simp [exportQueues, queueSamples]⟩
  | qStats :: rest, order, st, ho, hst => by
    have hmem : ∀ e ∈ order 0
        [ ("queue_rx_packets", qStats.RxPackets),
          ("queue_rx_bytes", qStats.RxBytes),
          ("queue_rx_drops", qStats.RxDrops),
          ("queue_tx_packets", qStats.TxPackets),
          ("queue_tx_bytes", qStats.TxBytes),
          ("queue_tx_drops", qStats.TxDrops) ],
        (id e.1, "Per-queue network interface statistic", ["interface", "driver", "queue"])
          ∈ metricSchema := by
      intro e he
      exact queueNames_schema e.1 (List.mem_map_of_mem Prod.fst ((ho 0 _).subset he))
    obtain ⟨hgood, hch⟩ := sendLoop_schema id "Per-queue network interface statistic"
      ["interface", "driver", "queue"] ValueType.CounterValue
      ([ifaceName, driverType] ++ [Itoa qStats.QueueIndex]) rfl _ st hst hmem
    obtain ⟨hgood', hch'⟩ := exportQueues_samples ifaceName driverType rest
      (fun i => order (i + 1)) _ (fun i => ho (i + 1)) hgood
    refine ⟨hgood', ?_⟩
    refine hch'.trans ?_
    rw [hch, List.append_assoc]
    rfl

theorem exportInterface_samples (s : CollectSched) (hs : s.Valid) (st : Scrape) (hst : st.Good)
    (ifaceName : String) (nicInfo : NICInfo) (ethtoolStats : List (String × Nat)) :
    (exportInterface s st ifaceName nicInfo ethtoolStats).Good ∧
      (exportInterface s st ifaceName nicInfo ethtoolStats).ch =
        st.ch ++ (counterSamples s ifaceName nicInfo ethtoolStats
          ++ [infoSample ifaceName nicInfo]) := by
  have hbasic : ∀ e ∈ s.basicMetrics
      [ ("rx_packets", (ProcessDriverStats s.driver nicInfo.DriverType ethtoolStats).Basic.RxPackets),
        ("rx_bytes", (ProcessDriverStats s.driver nicInfo.DriverType ethtoolStats).Basic.RxBytes),
        ("rx_drops", (ProcessDriverStats s.driver nicInfo.DriverType ethtoolStats).Basic.RxDrops),
        ("tx_packets", (ProcessDriverStats s.driver nicInfo.DriverType ethtoolStats).Basic.TxPackets),
        ("tx_bytes", (ProcessDriverStats s.driver nicInfo.DriverType ethtoolStats).Basic.TxBytes),
        ("tx_drops", (ProcessDriverStats s.driver nicInfo.DriverType ethtoolStats).Basic.TxDrops) ],
      (id e.1, "Basic network interface statistic", ["interface", "driver"]) ∈ metricSchema := by
    intro e he
    exact basicNames_schema e.1 (List.mem_map_of_mem Prod.fst ((hs.basicMetrics _).subset he))
  obtain ⟨hg₁, hc₁⟩ := sendLoop_schema id "Basic network interface statistic"
    ["interface", "driver"] ValueType.CounterValue [ifaceName, nicInfo.DriverType] rfl _ st hst
    hbasic
  obtain ⟨hg₂, hc₂⟩ := exportQueues_samples ifaceName nicInfo.DriverType
    (ProcessDriverStats s.driver nicInfo.DriverType ethtoolStats).PerQueue s.queueMetrics _
    hs.queueMetrics hg₁
  have hinfo : ("info", "Network interface information", ["interface", "driver", "version"])
      ∈ metricSchema := by decide
  have hinfoSample : sampleOf "info" "Network interface information"
      ["interface", "driver", "version"] ValueType.GaugeValue 1
      [ifaceName, nicInfo.DriverType, nicInfo.Version] = infoSample ifaceName nicInfo := by
    have hd : NewDesc (BuildFQName "nic" "" "info") "Network interface information"
        ["interface", "driver", "version"] =
        { fqName := "nic_info", help := "Network interface information",
          variableLabels := ["interface", "driver", "version"], err := false } := by decide
    simp only [sampleOf, infoSample, hd]
  cases hphy : (ProcessDriverStats s.driver nicInfo.DriverType ethtoolStats).Physical with
  | none =>
    simp only [exportInterface, counterSamples, hphy]
    obtain ⟨hg₄, hc₄⟩ := send_schema _ hg₂ "info" "Network interface information"
      ["interface", "driver", "version"] hinfo ValueType.GaugeValue 1
      [ifaceName, nicInfo.DriverType, nicInfo.Version] rfl
    refine ⟨hg₄, ?_⟩
    refine hc₄.trans ?_
    rw [hc₂, hc₁, hinfoSample]
    simp only [List.append_assoc, List.append_nil, id]
  | some physical =>
    simp only [exportInterface, counterSamples, hphy]
    have hphyNames : ∀ e ∈ s.phyStats
        [ ("rx_bytes", physical.RxBytes),
          ("tx_bytes", physical.TxBytes),
          ("rx_packets", physical.RxPackets),
          ("tx_packets", physical.TxPackets),
          ("rx_discards", physical.RxDiscarded),
          ("tx_discards", physical.TxDiscarded),
          ("rx_pause_ctrl", physical.RxPauseCtrl),
          ("tx_pause_ctrl", physical.TxPauseCtrl) ],
        ((fun x => "phy_" ++ x) e.1, "PHY drops for network interface", ["interface", "driver"])
          ∈ metricSchema := by
      intro e he
      exact phyNames_schema e.1 (List.mem_map_of_mem Prod.fst ((hs.phyStats _).subset he))
    obtain ⟨hg₃, hc₃⟩ := sendLoop_schema (fun x => "phy_" ++ x) "PHY drops for network interface"
      ["interface", "driver"] ValueType.CounterValue [ifaceName, nicInfo.DriverType] rfl _ _ hg₂
      hphyNames
    obtain ⟨hg₄, hc₄⟩ := send_schema _ hg₃ "info" "Network interface information"
      ["interface", "driver", "version"] hinfo ValueType.GaugeValue 1
      [ifaceName, nicInfo.DriverType, nicInfo.Version] rfl
    refine ⟨hg₄, ?_⟩
    refine hc₄.trans ?_
    rw [hc₃, hc₂, hc₁, hinfoSample]
    simp only [List.append_assoc, id]

theorem collectInterface_samples (s : CollectSched) (hs : s.Valid) (env : Env) (st : Scrape)
    (hst : st.Good) (ifaceName : String) :
    (collectInterface s env st ifaceName).Good ∧
      (collectInterface s env st ifaceName).ch = st.ch ++ interfaceSamples s env ifaceName := by
  unfold collectInterface interfaceSamples resolve
  rw [hst.2]
  simp only [Bool.false_eq_true, if_false]
  cases env.LinkByName ifaceName with
  | error err => exact ⟨hst, by simp⟩
  | ok linkName =>
    simp only
    cases GetNICInfo env.DriverInfo linkName with
    | error err => exact ⟨hst, by simp⟩
    | ok nicInfo =>
      simp only
      cases getEthtoolStats env ifaceName with
      | error err => exact ⟨hst, by simp⟩
      | ok ethtoolStats => exact exportInterface_samples s hs st hst ifaceName nicInfo ethtoolStats

theorem collectLoop_samples (env : Env) (s : Nat → CollectSched) (hs : ∀ i, (s i).Valid) :
    ∀ (interfaces : List String) (n : Nat) (st : Scrape), st.Good →
      (collectLoop (fun i => s (i + n)) env interfaces st).Good ∧
        (collectLoop (fun i => s (i + n)) env interfaces st).ch =
          st.ch ++ ((interfaces.enumFrom n).map
            (fun p => interfaceSamples (s p.1) env p.2)).flatten
  | [], n, st, hst => ⟨hst, by simp [collectLoop]⟩
  | ifaceName :: rest, n, st, hst => by
    obtain ⟨hg, hc⟩ := collectInterface_samples (s (0 + n)) (hs _) env st hst ifaceName
    have hshift : (fun i => (fun j => s (j + n)) (i + 1)) = fun i => s (i + (n + 1)) := by
      funext i
      show s (i + 1 + n) = s (i + (n + 1))
      rw [Nat.add_assoc, Nat.add_comm 1 n]
    obtain ⟨hg', hc'⟩ := collectLoop_samples env s hs rest (n + 1) _ hg
    simp only [collectLoop, List.enumFrom_cons, List.map_cons, List.flatten_cons]
    rw [hshift]
    refine ⟨hg', ?_⟩
    rw [hc', hc, List.append_assoc, Nat.zero_add]

theorem reachable_cacheOK (c : EthtoolCollector) (h : Reachable c) : CacheOK c.metrics := by
  induction h with
  | new interfaces =>
    intro e he
    simp at he
  | collect c s env _ hs ih =>
    have hgood : (Scrape.mk c.metrics [] false []).Good := ⟨ih, rfl⟩
    exact (collectLoop_samples env s hs c.interfaces 0 _ hgood).1.1

/-- From a cache that satisfies its invariant, `Collect` sends the samples of the interfaces
in list order and does not panic. -/
theorem collect_samples (s : Nat → CollectSched) (hs : ∀ i, (s i).Valid) (env : Env)
    (c : EthtoolCollector) (hc : CacheOK c.metrics) :
    (Collect s env c).Good ∧
      (Collect s env c).ch =
        (c.interfaces.enum.map (fun p => interfaceSamples (s p.1) env p.2)).flatten := by
  have hgood : (Scrape.mk c.metrics [] false []).Good := ⟨hc, rfl⟩
  obtain ⟨hg, hch⟩ := collectLoop_samples env s hs c.interfaces 0 _ hgood
  exact ⟨hg, by simpa [Collect, List.enum] using hch⟩

theorem collect_single (s : CollectSched) (hs : s.Valid) (env : Env)
    (metrics : List (String × Desc)) (hc : CacheOK metrics) (ifaceName : String) :
    (Collect (fun _ => s) env { interfaces := [ifaceName], metrics := metrics }).ch =
      interfaceSamples s env ifaceName := by
  have h := (collect_samples (fun _ => s) (fun _ => hs) env
    { interfaces := [ifaceName], metrics := metrics } hc).2
  simpa [List.enum, List.enumFrom] using h

theorem resolve_none_of_link (env : Env) (ifaceName err : String)
    (h : env.LinkByName ifaceName = Except.error err) : resolve env ifaceName = none := by
  unfold resolve
  rw [h]

theorem resolve_none_of_driver (env : Env) (ifaceName linkName err : String)
    (hl : env.LinkByName ifaceName = Except.ok linkName)
    (h : GetNICInfo env.DriverInfo linkName = Except.error err) :
    resolve env ifaceName = none := by
  unfold resolve
  rw [hl]
  simp only
  rw [h]

theorem resolve_none_of_stats (env : Env) (ifaceName err : String)
    (h : env.Stats ifaceName = Except.error err) : resolve env ifaceName = none := by
  have hs : getEthtoolStats env ifaceName = Except.error ("failed to get ethtool stats: " ++ err) := by
    unfold getEthtoolStats
    rw [h]
  unfold resolve
  cases env.LinkByName ifaceName with
  | error e => rfl
  | ok linkName =>
    simp only
    cases GetNICInfo env.DriverInfo linkName with
    | error e => rfl
    | ok nicInfo =>
      simp only
      rw [hs]

/-- C7: on every collector state the program reaches, for every interface list, every
outcome of the external collaborators and every visiting order of the maps, `Collect` does
not panic and the samples it sends are the concatenation, in interface-list order, of the
samples each interface yields when it is the only configured interface (under the visiting
orders of its position); an interface whose link lookup fails, whose driver resolution
fails, or whose counter fetch fails yields no sample. -/
theorem C7_interface_failures_are_isolated (s : Nat → CollectSched) (hs : ∀ i, (s i).Valid)
    (env : Env) (c : EthtoolCollector) (hc : Reachable c) :
    (Collect s env c).panicked = false ∧
    (Collect s env c).ch =
      (c.interfaces.enum.map
        (fun p => (Collect (fun _ => s p.1) env
          { interfaces := [p.2], metrics := c.metrics }).ch)).flatten ∧
    (∀ (s₀ : CollectSched) (ifaceName err : String), s₀.Valid →
      env.LinkByName ifaceName = Except.error err →
      (Collect (fun _ => s₀) env { interfaces := [ifaceName], metrics := c.metrics }).ch = []) ∧
    (∀ (s₀ : CollectSched) (ifaceName linkName err : String), s₀.Valid →
      env.LinkByName ifaceName = Except.ok linkName →
      GetNICInfo env.DriverInfo linkName = Except.error err →
      (Collect (fun _ => s₀) env { interfaces := [ifaceName], metrics := c.metrics }).ch = []) ∧
    (∀ (s₀ : CollectSched) (ifaceName err : String), s₀.Valid →
      env.Stats ifaceName = Except.error err →
      (Collect (fun _ => s₀) env { interfaces := [ifaceName], metrics := c.metrics }).ch = []) := by
  have hcache := reachable_cacheOK c hc
  obtain ⟨hg, hch⟩ := collect_samples s hs env c hcache
  refine ⟨hg.2, ?_, ?_, ?_, ?_⟩
  · rw [hch]
    congr 1
    apply List.map_congr_left
    intro p _
    exact (collect_single (s p.1) (hs p.1) env c.metrics hcache p.2).symm
  · intro s₀ ifaceName err hs₀ h
    rw [collect_single s₀ hs₀ env c.metrics hcache ifaceName]
    unfold interfaceSamples
    rw [resolve_none_of_link env ifaceName err h]
  · intro s₀ ifaceName linkName err hs₀ hl h
    rw [collect_single s₀ hs₀ env c.metrics hcache ifaceName]
    unfold interfaceSamples
    rw [resolve_none_of_driver env ifaceName linkName err hl h]
  · intro s₀ ifaceName err hs₀ h
    rw [collect_single s₀ hs₀ env c.metrics hcache ifaceName]
    unfold interfaceSamples
    rw [resolve_none_of_stats env ifaceName err h]

/-- Witness of C7: with `eth1` on an unsupported driver and `nope` not a link, the scrape of
`eth0, eth1, nope, eth2` does not panic, and `eth1` alone yields no sample. -/
theorem C7_interface_failures_are_isolated_witness :
    (Collect (fun _ => CollectSched.reversed) sampleEnv
      { interfaces := ["eth0", "eth1", "nope", "eth2"], metrics := [] }).panicked = false ∧
    (Collect (fun _ => CollectSched.reversed) sampleEnv
      { interfaces := ["eth1"], metrics := [] }).ch = [] :=
  ⟨(C7_interface_failures_are_isolated (fun _ => CollectSched.reversed)
      (fun _ => collectSched_reversed_valid) sampleEnv
      { interfaces := ["eth0", "eth1", "nope", "eth2"], metrics := [] }
      (Reachable.new _)).1,
    (C7_interface_failures_are_isolated (fun _ => CollectSched.reversed)
      (fun _ => collectSched_reversed_valid) sampleEnv
      { interfaces := ["eth0", "eth1", "nope", "eth2"], metrics := [] }
      (Reachable.new _)).2.2.2.1 CollectSched.reversed "eth1" "eth1"
      "unsupported driver: e1000 (only mlx5 and ena drivers are supported)"
      collectSched_reversed_valid rfl rfl⟩

/-! ## The informational sample -/

theorem counterNames_not_info :
    ∀ n ∈ ["rx_packets", "rx_bytes", "rx_drops", "tx_packets", "tx_bytes", "tx_drops",
        "queue_rx_packets", "queue_rx_bytes", "queue_rx_drops", "queue_tx_packets",
        "queue_tx_bytes", "queue_tx_drops", "phy_rx_bytes", "phy_tx_bytes", "phy_rx_packets",
        "phy_tx_packets", "phy_rx_discards", "phy_tx_discards", "phy_rx_pause_ctrl",
        "phy_tx_pause_ctrl"],
      BuildFQName "nic" "" n ≠ "nic_info" := by
  decide

theorem queueSamples_counter (labelValues : List String) :
    ∀ (queues : List QueueStats) (order : Nat → RangeOrder (String × Nat)),
      (∀ i, (order i).Valid) →
      ∀ m ∈ queueSamples order labelValues queues,
        m.valType = ValueType.CounterValue ∧ m.desc.fqName ≠ "nic_info"
  | [], _, _, m, hm => by simp [queueSamples] at hm
  | qStats :: rest, order, ho, m, hm => by
    simp only [queueSamples, List.mem_append, List.mem_map] at hm
    rcases hm with ⟨e, he, rfl⟩ | hm
    · refine ⟨rfl, ?_⟩
      have hn : e.1 ∈ ["queue_rx_packets", "queue_rx_bytes", "queue_rx_drops",
          "queue_tx_packets", "queue_tx_bytes", "queue_tx_drops"] :=
        List.mem_map_of_mem Prod.fst ((ho 0 _).subset he)
      apply counterNames_not_info e.1
      simp only [List.mem_cons, List.mem_singleton, List.not_mem_nil, or_false] at hn ⊢
      tauto
    · exact queueSamples_counter labelValues rest (fun i => order (i + 1))
        (fun i => ho (i + 1)) m hm

theorem counterSamples_counter (s : CollectSched) (hs : s.Valid) (ifaceName : String)
    (nicInfo : NICInfo) (ethtoolStats : List (String × Nat)) :
    ∀ m ∈ counterSamples s ifaceName nicInfo ethtoolStats,
      m.valType = ValueType.CounterValue ∧ m.desc.fqName ≠ "nic_info" := by
  intro m hm
  simp only [counterSamples, List.mem_append, List.mem_map] at hm
  rcases hm with (⟨e, he, rfl⟩ | hm) | hm
  · refine ⟨rfl, ?_⟩
    have hn : e.1 ∈ ["rx_packets", "rx_bytes", "rx_drops", "tx_packets", "tx_bytes",
        "tx_drops"] := List.mem_map_of_mem Prod.fst ((hs.basicMetrics _).subset he)
    apply counterNames_not_info e.1
    simp only [List.mem_cons, List.mem_singleton, List.not_mem_nil, or_false] at hn ⊢
    tauto
  · exact queueSamples_counter _ _ s.queueMetrics hs.queueMetrics m hm
  · cases hphy : (ProcessDriverStats s.driver nicInfo.DriverType ethtoolStats).Physical with
    | none =>
      rw [hphy] at hm
      simp at hm
    | some physical =>
      rw [hphy] at hm
      simp only [List.mem_map] at hm
      obtain ⟨e, he, rfl⟩ := hm
      refine ⟨rfl, ?_⟩
      have hn : e.1 ∈ ["rx_bytes", "tx_bytes", "rx_packets", "tx_packets", "rx_discards",
          "tx_discards", "rx_pause_ctrl", "tx_pause_ctrl"] :=
        List.mem_map_of_mem Prod.fst ((hs.phyStats _).subset he)
      have hall : ∀ n ∈ ["rx_bytes", "tx_bytes", "rx_packets", "tx_packets", "rx_discards",
          "tx_discards", "rx_pause_ctrl", "tx_pause_ctrl"],
          BuildFQName "nic" "" ("phy_" ++ n) ≠ "nic_info" := by decide
      exact hall e.1 hn

theorem interfaceSamples_gauge (s : CollectSched) (hs : s.Valid) (env : Env)
    (ifaceName : String) :
    (interfaceSamples s env ifaceName).filter
        (fun m => decide (m.valType = ValueType.GaugeValue)) =
      ((resolve env ifaceName).map (fun r => infoSample ifaceName r.1)).toList := by
  unfold interfaceSamples
  cases resolve env ifaceName with
  | none => rfl
  | some r =>
    obtain ⟨nicInfo, ethtoolStats⟩ := r
    simp only [List.filter_append, Option.map_some', Option.toList_some]
    have hcounters : (counterSamples s ifaceName nicInfo ethtoolStats).filter
        (fun m => decide (m.valType = ValueType.GaugeValue)) = [] := by
      apply List.filter_eq_nil_iff.2
      intro m hm
      have := (counterSamples_counter s hs ifaceName nicInfo ethtoolStats m hm).1
      simp [this]
    rw [hcounters]
    rfl

theorem groups_gauge (s : Nat → CollectSched) (hs : ∀ i, (s i).Valid) (env : Env) :
    ∀ (l : List (Nat × String)),
      ((l.map (fun p => interfaceSamples (s p.1) env p.2)).flatten).filter
          (fun m => decide (m.valType = ValueType.GaugeValue)) =
        (l.map Prod.snd).filterMap
          (fun name => (resolve env name).map (fun r => infoSample name r.1))
  | [] => rfl
  | p :: rest => by
    simp only [List.map_cons, List.flatten_cons, List.filter_append,
      interfaceSamples_gauge (s p.1) (hs p.1) env p.2, groups_gauge s hs env rest,
      List.filterMap_cons]
    cases resolve env p.2 with
    | none => rfl
    | some r => rfl

/-- C9: on every collector state the program reaches, for every outcome of the external
collaborators and every visiting order of the maps, the gauge samples `Collect` sends are,
in interface-list order, one sample for each interface whose link is found, whose driver
is resolved and whose counters are fetched: the sample named `nic_info` with value 1, label
names interface, driver, version and label values the interface name, the resolved
`DriverType` and the resolved `Version`; every sample named `nic_info` is a gauge. -/
theorem C9_one_info_sample_per_interface (s : Nat → CollectSched) (hs : ∀ i, (s i).Valid)
    (env : Env) (c : EthtoolCollector) (hc : Reachable c) :
    (Collect s env c).ch.filter (fun m => decide (m.valType = ValueType.GaugeValue)) =
      c.interfaces.filterMap
        (fun ifaceName =>
          (resolve env ifaceName).map
            (fun r =>
              { desc :=
                  { fqName := "nic_info", help := "Network interface information",
                    variableLabels := ["interface", "driver", "version"], err := false },
                valType := ValueType.GaugeValue,
                value := 1,
                labelValues := [ifaceName, r.1.DriverType, r.1.Version] })) ∧
    (∀ m ∈ (Collect s env c).ch, m.desc.fqName = "nic_info" →
      m.valType = ValueType.GaugeValue) := by
  have hcache := reachable_cacheOK c hc
  obtain ⟨_, hch⟩ := collect_samples s hs env c hcache
  rw [hch]
  refine ⟨?_, ?_⟩
  · rw [groups_gauge s hs env c.interfaces.enum, List.enum_map_snd]
    rfl
  · intro m hm hname
    simp only [List.mem_flatten, List.mem_map] at hm
    obtain ⟨group, ⟨p, _, rfl⟩, hmem⟩ := hm
    unfold interfaceSamples at hmem
    cases hres : resolve env p.2 with
    | none =>
      rw [hres] at hmem
      simp at hmem
    | some r =>
      rw [hres] at hmem
      simp only [List.mem_append, List.mem_singleton] at hmem
      rcases hmem with hmem | rfl
      · exact absurd hname (counterSamples_counter (s p.1) (hs p.1) p.2 r.1 r.2 m hmem).2
      · rfl

/-- Witness of C9: the scrape of `eth0, eth1, nope, eth2` sends two gauge samples, for `eth0`
and for `eth2`. -/
theorem C9_one_info_sample_per_interface_witness :
    ((Collect (fun _ => CollectSched.reversed) sampleEnv
      { interfaces := ["eth0", "eth1", "nope", "eth2"], metrics := [] }).ch.filter
        (fun m => decide (m.valType = ValueType.GaugeValue))).map (fun m => m.labelValues) =
      [["eth0", "mlx5_core", "5.0"], ["eth2", "ena", "2.0"]] :=
  (congrArg (List.map (fun m => m.labelValues))
    (C9_one_info_sample_per_interface (fun _ => CollectSched.reversed)
      (fun _ => collectSched_reversed_valid) sampleEnv
      { interfaces := ["eth0", "eth1", "nope", "eth2"], metrics := [] }
      (Reachable.new _)).1).trans (by decide)

/-! ## Raw pass-through counters in the scrape -/

/-- C8 at a concrete input: `eth0` is processed, its `DriverSpecific` map holds the entry
`raw_vendor_x` with value 3, and `Collect` sends the six basic samples, the six samples of
queue 0, the eight physical samples and the informational sample: no sample is named
after `raw_vendor_x`. -/
theorem C8_raw_counters_not_sent :
    (ProcessDriverStats DriverSched.listed "mlx5_core"
      [("rx_packets", 100), ("rx0_packets", 5), ("vendor_x", 3)]).DriverSpecific =
      [("raw_rx_packets", 100), ("raw_rx0_packets", 5), ("raw_vendor_x", 3)] ∧
    (Collect (fun _ => CollectSched.listed) sampleEnv
      { interfaces := ["eth0"], metrics := [] }).ch.map (fun m => m.desc.fqName) =
      ["nic_rx_packets", "nic_rx_bytes", "nic_rx_drops", "nic_tx_packets", "nic_tx_bytes",
        "nic_tx_drops", "nic_queue_rx_packets", "nic_queue_rx_bytes", "nic_queue_rx_drops",
        "nic_queue_tx_packets", "nic_queue_tx_bytes", "nic_queue_tx_drops",
        "nic_phy_rx_bytes", "nic_phy_tx_bytes", "nic_phy_rx_packets", "nic_phy_tx_packets",
        "nic_phy_rx_discards", "nic_phy_tx_discards", "nic_phy_rx_pause_ctrl",
        "nic_phy_tx_pause_ctrl", "nic_info"] ∧
    (Collect (fun _ => CollectSched.listed) sampleEnv
      { interfaces := ["eth0"], metrics := [] }).ch.map (fun m => m.value) =
      [100, 0, 0, 0, 0, 0, 5, 0, 0, 0, 0, 0, 0, 0, 0, 0, 0, 0, 0, 0, 1] := by
  decide

/-! ## Physical statistics -/

theorem assignPhy_RxPackets (a : String) (t : Nat) (z : PhyStats) :
    (assignPhy a t z).RxPackets = if a = CounterRxPackets then t else z.RxPackets := by
  unfold assignPhy
  split_ifs <;> rfl

theorem assignPhy_RxBytes (a : String) (t : Nat) (z : PhyStats) :
    (assignPhy a t z).RxBytes = if a = CounterRxBytes then t else z.RxBytes := by
  unfold assignPhy
  split_ifs <;> first | rfl | simp_all +decide

theorem assignPhy_TxPackets (a : String) (t : Nat) (z : PhyStats) :
    (assignPhy a t z).TxPackets = if a = CounterTxPackets then t else z.TxPackets := by
  unfold assignPhy
  split_ifs <;> first | rfl | simp_all +decide

theorem assignPhy_TxBytes (a : String) (t : Nat) (z : PhyStats) :
    (assignPhy a t z).TxBytes = if a = CounterTxBytes then t else z.TxBytes := by
  unfold assignPhy
  split_ifs <;> first | rfl | simp_all +decide

theorem assignPhy_RxDiscarded (a : String) (t : Nat) (z : PhyStats) :
    (assignPhy a t z).RxDiscarded = if a = CounterRxDiscards then t else z.RxDiscarded := by
  unfold assignPhy
  split_ifs <;> first | rfl | simp_all +decide

theorem assignPhy_TxDiscarded (a : String) (t : Nat) (z : PhyStats) :
    (assignPhy a t z).TxDiscarded = if a = CounterTxDiscards then t else z.TxDiscarded := by
  unfold assignPhy
  split_ifs <;> first | rfl | simp_all +decide

theorem assignPhy_RxPauseCtrl (a : String) (t : Nat) (z : PhyStats) :
    (assignPhy a t z).RxPauseCtrl = if a = CounterRxPauseCtrl then t else z.RxPauseCtrl := by
  unfold assignPhy
  split_ifs <;> first | rfl | simp_all +decide

theorem assignPhy_TxPauseCtrl (a : String) (t : Nat) (z : PhyStats) :
    (assignPhy a t z).TxPauseCtrl = if a = CounterTxPauseCtrl then t else z.TxPauseCtrl := by
  unfold assignPhy
  split_ifs <;> first | rfl | simp_all +decide

theorem assignPhy_comm (a b : String) (ta tb : Nat) (z : PhyStats) (h : a = b → ta = tb) :
    assignPhy b tb (assignPhy a ta z) = assignPhy a ta (assignPhy b tb z) := by
  by_cases hab : a = b
  · subst hab
    rw [h rfl]
  · apply PhyStats.ext <;>
      simp only [assignPhy_RxPackets, assignPhy_RxBytes, assignPhy_TxPackets,
        assignPhy_TxBytes, assignPhy_RxDiscarded, assignPhy_TxDiscarded,
        assignPhy_RxPauseCtrl, assignPhy_TxPauseCtrl] <;>
      split_ifs with h1 h2 <;>
      first | rfl | exact absurd (h2.trans h1.symm) hab

theorem phyTable_keys :
    ∀ x ∈ MLX5PhyMetricMapping, ∀ y ∈ MLX5PhyMetricMapping, x.1 = y.1 → x = y := by
  decide

theorem processMLX5PhyStats_order (order : RangeOrder (String × List String))
    (ho : order.Valid) (raw : List (String × Nat)) (z : PhyStats) :
    processMLX5PhyStats order raw z = processMLX5PhyStats id raw z := by
  unfold processMLX5PhyStats
  refine ((ho MLX5PhyMetricMapping).symm.foldl_eq' ?_ z).symm
  intro x hx y hy st
  apply assignPhy_comm
  intro hxy
  rw [phyTable_keys x hx y hy hxy]

theorem processMLX5PhyStats_listed (raw : List (String × Nat)) (h : RawOK raw) (z : PhyStats) :
    processMLX5PhyStats id raw z =
      { RxPackets := valOf raw "rx_packets_phy", RxBytes := valOf raw "rx_bytes_phy",
        TxPackets := valOf raw "tx_packets_phy", TxBytes := valOf raw "tx_bytes_phy",
        RxDiscarded := valOf raw "rx_discards_phy", TxDiscarded := valOf raw "tx_discards_phy",
        RxPauseCtrl := valOf raw "rx_pause_ctrl_phy",
        TxPauseCtrl := valOf raw "tx_pause_ctrl_phy" } := by
  simp only [processMLX5PhyStats, MLX5PhyMetricMapping, id, List.foldl_cons, List.foldl_nil,
    sumSources_one raw h]
  apply PhyStats.ext <;>
    simp only [assignPhy_RxPackets, assignPhy_RxBytes, assignPhy_TxPackets,
      assignPhy_TxBytes, assignPhy_RxDiscarded, assignPhy_TxDiscarded,
      assignPhy_RxPauseCtrl, assignPhy_TxPauseCtrl] <;>
    simp [CounterRxPackets, CounterRxBytes, CounterTxPackets, CounterTxBytes,
      CounterRxDiscards, CounterTxDiscards, CounterRxPauseCtrl, CounterTxPauseCtrl]

/-- C11: for driver type `mlx5_core`, every well-formed snapshot and every visiting order of
the maps, `ProcessDriverStats` returns a present `Physical` record whose eight fields are
the values of the keys `rx_packets_phy`, `rx_bytes_phy`, `tx_packets_phy`, `tx_bytes_phy`,
`rx_discards_phy`, `tx_discards_phy`, `rx_pause_ctrl_phy`, `tx_pause_ctrl_phy`, each 0 when
the key is absent; no source key of `MLX5MetricMapping` is a source key of
`MLX5PhyMetricMapping`. -/
theorem C11_physical_record_from_phy_keys (s : DriverSched) (hs : s.Valid)
    (raw : List (String × Nat)) (h : RawOK raw) :
    (ProcessDriverStats s "mlx5_core" raw).Physical =
      some
        { RxPackets := valOf raw "rx_packets_phy", RxBytes := valOf raw "rx_bytes_phy",
          TxPackets := valOf raw "tx_packets_phy", TxBytes := valOf raw "tx_bytes_phy",
          RxDiscarded := valOf raw "rx_discards_phy",
          TxDiscarded := valOf raw "tx_discards_phy",
          RxPauseCtrl := valOf raw "rx_pause_ctrl_phy",
          TxPauseCtrl := valOf raw "tx_pause_ctrl_phy" } ∧
    (∀ e ∈ MLX5MetricMapping, ∀ k ∈ e.2, ∀ e' ∈ MLX5PhyMetricMapping, k ∉ e'.2) := by
  have hd : ("mlx5_core" : String) = DriverMLX5 := rfl
  refine ⟨?_, by decide⟩
  simp only [ProcessDriverStats, hd, if_true, processMLX5Stats]
  rw [processMLX5PhyStats_order s.phyTable hs.phyTable, processMLX5PhyStats_listed raw h]

/-- The snapshot with two physical keys, one basic key and one queue key is well formed. -/
theorem phyScenario_ok :
    RawOK [("rx_packets_phy", 11), ("rx_packets", 100), ("tx_discards_phy", 4),
      ("rx0_packets", 5)] := by
  unfold RawOK mapKeys
  decide

/-- Witness of C11: physical keys are read, a basic key of the same stem is not. -/
theorem C11_physical_record_from_phy_keys_witness :
    (ProcessDriverStats DriverSched.reversed "mlx5_core"
      [("rx_packets_phy", 11), ("rx_packets", 100), ("tx_discards_phy", 4),
        ("rx0_packets", 5)]).Physical =
      some
        { RxPackets := 11, RxBytes := 0, TxPackets := 0, TxBytes := 0, RxDiscarded := 0,
          TxDiscarded := 4, RxPauseCtrl := 0, TxPauseCtrl := 0 } :=
  (C11_physical_record_from_phy_keys DriverSched.reversed driverSched_reversed_valid
    [("rx_packets_phy", 11), ("rx_packets", 100), ("tx_discards_phy", 4), ("rx0_packets", 5)]
    phyScenario_ok).1.trans (by decide)

/-! ## The basic-counter scenario on the accepted driver types -/

/-- C12, as stated, fails: `GetNICInfo` accepts the driver name `ena`, and for driver type
`ena` the scenario snapshot gives `RxPackets = 0`, so the stated basic counters are not
obtained for each accepted driver type. -/
theorem C12_counterexample :
    (∃ nic, GetNICInfo (fun _ => Except.ok { Driver := "ena", Version := "2.0" }) "eth2"
      = Except.ok nic) ∧
    (ProcessDriverStats DriverSched.listed "ena"
      [("rx_packets", 100), ("tx_packets", 80), ("rx_out_of_buffer", 3),
        ("rx_wqe_err", 2)]).Basic.RxPackets = 0 ∧
    ¬ (∀ driverType, driverType = "mlx5_core" ∨ driverType = "ena" →
      (ProcessDriverStats DriverSched.listed driverType
        [("rx_packets", 100), ("tx_packets", 80), ("rx_out_of_buffer", 3),
          ("rx_wqe_err", 2)]).Basic =
        { RxPackets := 100, RxBytes := 0, RxDrops := 5, TxPackets := 80, TxBytes := 0,
          TxDrops := 0 }) := by
  refine ⟨⟨_, rfl⟩, by decide, ?_⟩
  intro h
  exact absurd (h "ena" (Or.inr rfl)) (by decide)

/-- C12, amended: for driver type `mlx5_core` and every visiting order of the maps,
`ProcessDriverStats` applied to the snapshot
`rx_packets:100, tx_packets:80, rx_out_of_buffer:3, rx_wqe_err:2` yields `RxPackets = 100`,
`RxDrops = 5`, `TxPackets = 80`, `TxDrops = 0` and `RxBytes = TxBytes = 0`. -/
theorem C12_scenario_basic_counters_mlx5 (s : DriverSched) (hs : s.Valid) :
    (ProcessDriverStats s "mlx5_core"
      [("rx_packets", 100), ("tx_packets", 80), ("rx_out_of_buffer", 3),
        ("rx_wqe_err", 2)]).Basic =
      { RxPackets := 100, RxBytes := 0, RxDrops := 5, TxPackets := 80, TxBytes := 0,
        TxDrops := 0 } := by
  rw [processDriverStats_basic s hs _ basicScenario_ok]
  decide

/-- Witness of C12, amended: the reversed visiting order. -/
theorem C12_scenario_basic_counters_mlx5_witness :
    (ProcessDriverStats DriverSched.reversed "mlx5_core"
      [("rx_packets", 100), ("tx_packets", 80), ("rx_out_of_buffer", 3),
        ("rx_wqe_err", 2)]).Basic.RxDrops = 5 :=
  congrArg BasicStats.RxDrops
    (C12_scenario_basic_counters_mlx5 DriverSched.reversed driverSched_reversed_valid)

/-! ## Queue keys and the source lists of the queue mapping -/

theorem queueKey_rx_rx (q : Int) (s₁ s₂ : String) :
    queueKey "rx" q s₁ = queueKey "rx" q s₂ ↔ s₁ = s₂ :=
  ⟨fun h => (queueKey_inj "rx" "rx" q s₁ s₂ rfl h).2, fun h => h ▸ rfl⟩

theorem queueKey_tx_tx (q : Int) (s₁ s₂ : String) :
    queueKey "tx" q s₁ = queueKey "tx" q s₂ ↔ s₁ = s₂ :=
  ⟨fun h => (queueKey_inj "tx" "tx" q s₁ s₂ rfl h).2, fun h => h ▸ rfl⟩

theorem queueKey_rx_tx (q : Int) (s₁ s₂ : String) :
    queueKey "rx" q s₁ = queueKey "tx" q s₂ ↔ False :=
  ⟨fun h => absurd (queueKey_inj "rx" "tx" q s₁ s₂ rfl h).1 (by decide), False.elim⟩

theorem queueKey_tx_rx (q : Int) (s₁ s₂ : String) :
    queueKey "tx" q s₁ = queueKey "rx" q s₂ ↔ False :=
  ⟨fun h => absurd (queueKey_inj "tx" "rx" q s₁ s₂ rfl h).1 (by decide), False.elim⟩

/-- The guard of each `switch` case, spelled out on the seven source metrics of the table. -/
theorem assignsTo_cases (name : String) (q : Int) (c : String) :
    assignsTo name q c ↔
      (c = CounterRxPackets ∧ name = queueKey "rx" q "packets") ∨
      (c = CounterRxBytes ∧ name = queueKey "rx" q "bytes") ∨
      (c = CounterTxPackets ∧ name = queueKey "tx" q "packets") ∨
      (c = CounterTxBytes ∧ name = queueKey "tx" q "bytes") ∨
      (c = CounterRxDrops ∧
        (name = queueKey "rx" q "wqe_err" ∨ name = queueKey "rx" q "buff_alloc_err")) ∨
      (c = CounterTxDrops ∧ name = queueKey "tx" q "cqe_err") := by
  obtain ⟨e1, e2, e3, e4, e5, e6, e7⟩ := expectedName_table q
  unfold assignsTo
  simp only [MLX5QueueMetricMapping, List.mem_cons, List.mem_singleton, List.not_mem_nil,
    or_false, exists_eq_or_imp, exists_eq_left, e1, e2, e3, e4, e5, e6, e7]
  constructor
  · rintro (⟨rfl, h⟩ | ⟨rfl, h⟩ | ⟨rfl, h⟩ | ⟨rfl, h⟩ | ⟨rfl, h⟩ | ⟨rfl, h⟩)
    · exact Or.inl ⟨rfl, h⟩
    · exact Or.inr (Or.inl ⟨rfl, h⟩)
    · exact Or.inr (Or.inr (Or.inl ⟨rfl, h⟩))
    · exact Or.inr (Or.inr (Or.inr (Or.inl ⟨rfl, h⟩)))
    · exact Or.inr (Or.inr (Or.inr (Or.inr (Or.inl ⟨rfl, h⟩))))
    · exact Or.inr (Or.inr (Or.inr (Or.inr (Or.inr ⟨rfl, h⟩))))
  · rintro (⟨rfl, h⟩ | ⟨rfl, h⟩ | ⟨rfl, h⟩ | ⟨rfl, h⟩ | ⟨rfl, h⟩ | ⟨rfl, h⟩)
    · exact Or.inl ⟨rfl, h⟩
    · exact Or.inr (Or.inl ⟨rfl, h⟩)
    · exact Or.inr (Or.inr (Or.inl ⟨rfl, h⟩))
    · exact Or.inr (Or.inr (Or.inr (Or.inl ⟨rfl, h⟩)))
    · exact Or.inr (Or.inr (Or.inr (Or.inr (Or.inl ⟨rfl, h⟩))))
    · exact Or.inr (Or.inr (Or.inr (Or.inr (Or.inr ⟨rfl, h⟩))))

/-- The effect of the loop over the mapping table on a key, in terms of the guard. -/
theorem queueTableLoop_assigns (order : RangeOrder (String × List String)) (ho : order.Valid)
    (name : String) (value : Nat) (q : Int) (r : QueueStats) :
    (∀ c, assignsTo name q c →
      queueTableLoop (order MLX5QueueMetricMapping) name value q r = assignQueue c value r) ∧
    ((∀ c, ¬ assignsTo name q c) →
      queueTableLoop (order MLX5QueueMetricMapping) name value q r = r) := by
  rw [queueTableLoop_perm _ _ (ho MLX5QueueMetricMapping), queueTableLoop_listed]
  constructor
  · intro c hc
    rcases (assignsTo_cases name q c).1 hc with
      ⟨rfl, rfl⟩ | ⟨rfl, rfl⟩ | ⟨rfl, rfl⟩ | ⟨rfl, rfl⟩ | ⟨rfl, rfl | rfl⟩ | ⟨rfl, rfl⟩ <;>
    apply QueueStats.ext <;>
    simp +decide [assignQueue_QueueIndex, assignQueue_RxPackets, assignQueue_RxBytes,
      assignQueue_TxPackets, assignQueue_TxBytes, assignQueue_RxDrops, assignQueue_TxDrops,
      queueKey_rx_rx, queueKey_tx_tx, queueKey_rx_tx, queueKey_tx_rx, CounterRxPackets,
      CounterRxBytes, CounterTxPackets, CounterTxBytes, CounterRxDrops, CounterTxDrops]
  · intro hnone
    have h1 : name ≠ queueKey "rx" q "packets" := fun h =>
      hnone CounterRxPackets ((assignsTo_cases name q _).2 (Or.inl ⟨rfl, h⟩))
    have h2 : name ≠ queueKey "rx" q "bytes" := fun h =>
      hnone CounterRxBytes ((assignsTo_cases name q _).2 (Or.inr (Or.inl ⟨rfl, h⟩)))
    have h3 : name ≠ queueKey "tx" q "packets" := fun h =>
      hnone CounterTxPackets ((assignsTo_cases name q _).2 (Or.inr (Or.inr (Or.inl ⟨rfl, h⟩))))
    have h4 : name ≠ queueKey "tx" q "bytes" := fun h =>
      hnone CounterTxBytes
        ((assignsTo_cases name q _).2 (Or.inr (Or.inr (Or.inr (Or.inl ⟨rfl, h⟩)))))
    have h5 : name ≠ queueKey "rx" q "wqe_err" := fun h =>
      hnone CounterRxDrops
        ((assignsTo_cases name q _).2 (Or.inr (Or.inr (Or.inr (Or.inr (Or.inl ⟨rfl, Or.inl h⟩))))))
    have h6 : name ≠ queueKey "rx" q "buff_alloc_err" := fun h =>
      hnone CounterRxDrops
        ((assignsTo_cases name q _).2 (Or.inr (Or.inr (Or.inr (Or.inr (Or.inl ⟨rfl, Or.inr h⟩))))))
    have h7 : name ≠ queueKey "tx" q "cqe_err" := fun h =>
      hnone CounterTxDrops
        ((assignsTo_cases name q _).2 (Or.inr (Or.inr (Or.inr (Or.inr (Or.inr ⟨rfl, h⟩))))))
    simp only [h1, h2, h3, h4, h5, h6, h7, if_false, or_self]

theorem matchDigits_split (direction : String) (rest : List Char) (g : String × String)
    (h : matchDigits direction rest = some g) :
    g.1 = direction ∧ ∃ tl, rest = g.2.toList ++ '_' :: tl := by
  unfold matchDigits at h
  split at h
  · rename_i d ds tl htake hdrop
    simp only [Option.some.injEq] at h
    subst h
    refine ⟨rfl, tl, ?_⟩
    have hsplit := List.takeWhile_append_dropWhile isDigit rest
    rw [htake, hdrop] at hsplit
    exact hsplit.symm
  · exact absurd h (by simp)

/-- A key that matches the queue pattern is its direction token, its digits, an underscore
and a suffix. -/
theorem mlx5QueuePattern_split (name : String) (g : String × String)
    (h : mlx5QueuePattern name = some g) :
    (g.1 = "rx" ∨ g.1 = "tx") ∧
      ∃ tl, name.toList = g.1.toList ++ (g.2.toList ++ '_' :: tl) := by
  unfold mlx5QueuePattern at h
  split at h
  · rename_i rest heq
    obtain ⟨h1, tl, h2⟩ := matchDigits_split _ _ g h
    refine ⟨Or.inl h1, tl, ?_⟩
    rw [heq, h1, h2]
    rfl
  · rename_i rest heq
    obtain ⟨h1, tl, h2⟩ := matchDigits_split _ _ g h
    refine ⟨Or.inr h1, tl, ?_⟩
    rw [heq, h1, h2]
    rfl
  · exact absurd h (by simp)

theorem nonIndexedName_eq (name : String) (g : String × String) (tl : List Char)
    (h : mlx5QueuePattern name = some g)
    (hl : name.toList = g.1.toList ++ (g.2.toList ++ '_' :: tl)) :
    nonIndexedName name = some (g.1 ++ "_" ++ String.mk tl) := by
  unfold nonIndexedName
  rw [h]
  simp only [Option.some.injEq]
  congr 2
  rw [hl]
  have hlen : g.1.toList.length + g.2.toList.length + 1 =
      (g.1.toList ++ (g.2.toList ++ ['_'])).length := by
    simp [Nat.add_assoc]
  have happ : g.1.toList ++ (g.2.toList ++ '_' :: tl) =
      (g.1.toList ++ (g.2.toList ++ ['_'])) ++ tl := by
    simp [List.append_assoc]
  rw [hlen, happ, List.drop_left]

theorem nonIndexed_inj (d₁ d₂ s₁ s₂ : String) (hlen : d₁.toList.length = d₂.toList.length) :
    d₁ ++ "_" ++ s₁ = d₂ ++ "_" ++ s₂ ↔ d₁ = d₂ ∧ s₁ = s₂ := by
  constructor
  · intro h
    have h' := congrArg String.data h
    simp only [String.data_append, List.append_assoc] at h'
    obtain ⟨h1, h2⟩ := List.append_inj h' hlen
    exact ⟨String.ext h1, String.ext (List.append_cancel_left h2)⟩
  · rintro ⟨rfl, rfl⟩
    rfl

/-- Every source metric of the queue mapping is a direction token, an underscore and a
suffix, and its expected name for queue `q` is the queue key of that direction and suffix. -/
theorem queueSources_form (q : Int) :
    ∀ entry ∈ MLX5QueueMetricMapping, ∀ src ∈ entry.2,
      ∃ d sfx, (d = "rx" ∨ d = "tx") ∧ src = d ++ "_" ++ sfx ∧
        expectedName src q = queueKey d q sfx := by
  obtain ⟨e1, e2, e3, e4, e5, e6, e7⟩ := expectedName_table q
  intro entry he src hs
  simp only [MLX5QueueMetricMapping, List.mem_cons, List.mem_singleton, List.not_mem_nil,
    or_false] at he
  rcases he with rfl | rfl | rfl | rfl | rfl | rfl <;>
    simp only [List.mem_cons, List.mem_singleton, List.not_mem_nil, or_false] at hs
  · subst hs
    exact ⟨"rx", "packets", Or.inl rfl, by decide, e1⟩
  · subst hs
    exact ⟨"rx", "bytes", Or.inl rfl, by decide, e2⟩
  · subst hs
    exact ⟨"tx", "packets", Or.inr rfl, by decide, e3⟩
  · subst hs
    exact ⟨"tx", "bytes", Or.inr rfl, by decide, e4⟩
  · rcases hs with rfl | rfl
    · exact ⟨"rx", "wqe_err", Or.inl rfl, by decide, e5⟩
    · exact ⟨"rx", "buff_alloc_err", Or.inl rfl, by decide, e6⟩
  · subst hs
    exact ⟨"tx", "cqe_err", Or.inr rfl, by decide, e7⟩

theorem direction_length (d : String) (h : d = "rx" ∨ d = "tx") : d.toList.length = 2 := by
  rcases h with rfl | rfl <;> rfl

/-- C13, amended: for every raw key that matches the queue pattern and whose digits are the
decimal rendering of the queue index they parse to (no leading zeros, within the `int`
range), the loop body executes the `switch` case of canonical counter `c` for this key
exactly when the non-indexed name direction + `_` + suffix of the key is a member of the
source list of `c` in `MLX5QueueMetricMapping`; the loop body then stores, under the queue
index of the key, the record of that queue (or a new record) with that one case applied,
under every visiting order, and the record as it is when no case is executed. -/
theorem C13_assignment_iff_source_member (name direction digits : String) (q : Int)
    (hm : mlx5QueuePattern name = some (direction, digits)) (hq : Atoi digits = some q)
    (hcanon : digits = Itoa q) :
    (∀ c, assignsTo name q c ↔ ∃ n, nonIndexedName name = some n ∧ sourceOf c n) ∧
    (∀ (s : DriverSched) (queueMap : List (Int × QueueStats)) (value : Nat), s.Valid →
      (∀ c, assignsTo name q c →
        queueStep s queueMap (name, value) =
          mapSet queueMap q
            (assignQueue c value
              (match mapGet queueMap q with
                | some r => r
                | none => newQueueStats q))) ∧
      ((∀ c, ¬ assignsTo name q c) →
        queueStep s queueMap (name, value) =
          mapSet queueMap q
            (match mapGet queueMap q with
              | some r => r
              | none => newQueueStats q))) := by
  constructor
  swap
  · intro s queueMap value hs
    have hstep : queueStep s queueMap (name, value) =
        mapSet queueMap q
          (queueTableLoop (s.queueTable name MLX5QueueMetricMapping) name value q
            (match mapGet queueMap q with
              | some r => r
              | none => newQueueStats q)) := by
      unfold queueStep
      simp only [hm, hq]
    rw [hstep]
    obtain ⟨h1, h2⟩ := queueTableLoop_assigns (s.queueTable name) (hs.queueTable name) name
      value q (match mapGet queueMap q with
        | some r => r
        | none => newQueueStats q)
    exact ⟨fun c hc => by rw [h1 c hc], fun hnone => by rw [h2 hnone]⟩
  obtain ⟨hdir, tl, hl⟩ := mlx5QueuePattern_split name _ hm
  simp only at hdir hl
  have hname : name = queueKey direction q (String.mk tl) := by
    apply String.ext
    have := queueKey_toList direction q (String.mk tl)
    simp only [String.toList] at this hl
    rw [this, hl, hcanon]
  have hnon := nonIndexedName_eq name _ tl hm hl
  simp only at hnon
  have hkey : ∀ entry ∈ MLX5QueueMetricMapping, ∀ src ∈ entry.2,
      (name = expectedName src q ↔ direction ++ "_" ++ String.mk tl = src) := by
    intro entry he src hs
    obtain ⟨d, sfx, hd, rfl, hexp⟩ := queueSources_form q entry he src hs
    have hlen : direction.toList.length = d.toList.length := by
      rw [direction_length direction hdir, direction_length d hd]
    rw [hexp, hname, nonIndexed_inj direction d _ sfx hlen]
    constructor
    · intro h
      exact queueKey_inj direction d q _ sfx hlen h
    · rintro ⟨rfl, rfl⟩
      rfl
  intro c
  unfold assignsTo sourceOf
  rw [hnon]
  constructor
  · rintro ⟨entry, he, hc, src, hs, hn⟩
    refine ⟨_, rfl, entry, he, hc, ?_⟩
    rw [(hkey entry he src hs).1 hn]
    exact hs
  · rintro ⟨n, hn, entry, he, hc, hmem⟩
    simp only [Option.some.injEq] at hn
    subst hn
    exact ⟨entry, he, hc, _, hmem, (hkey entry he _ hmem).2 rfl⟩

/-- C13, as stated, fails on a key written with leading zeros: `rx00_packets` matches the
pattern with digits `00`, which parse to queue index 0, and its non-indexed name
`rx_packets` is a member of the source list of `rx_packets`, but the `switch` case of
`rx_packets` is not executed for it; the snapshot `rx00_packets:9` gives the record of
queue 0 with `RxPackets = 0`. -/
theorem C13_counterexample :
    mlx5QueuePattern "rx00_packets" = some ("rx", "00") ∧
    Atoi "00" = some 0 ∧
    nonIndexedName "rx00_packets" = some "rx_packets" ∧
    sourceOf "rx_packets" "rx_packets" ∧
    ¬ assignsTo "rx00_packets" 0 "rx_packets" ∧
    ¬ (assignsTo "rx00_packets" 0 "rx_packets" ↔
      ∃ n, nonIndexedName "rx00_packets" = some n ∧ sourceOf "rx_packets" n) ∧
    processMLX5QueueStats DriverSched.listed [("rx00_packets", 9)] =
      [{ QueueIndex := 0, RxPackets := 0, RxBytes := 0, TxPackets := 0, TxBytes := 0,
         RxDrops := 0, TxDrops := 0 }] := by
  have hsrc : sourceOf "rx_packets" "rx_packets" := by
    unfold sourceOf
    decide
  have hnot : ¬ assignsTo "rx00_packets" 0 "rx_packets" := by
    unfold assignsTo
    decide
  refine ⟨by decide, by decide, by decide, hsrc, hnot, ?_, by decide⟩
  intro h
  exact hnot (h.2 ⟨"rx_packets", by decide, hsrc⟩)

/-- Witness of C13, amended: the key `rx12_bytes` of queue 12 is assigned to `rx_bytes`. -/
theorem C13_assignment_iff_source_member_witness :
    assignsTo "rx12_bytes" 12 "rx_bytes" :=
  ((C13_assignment_iff_source_member "rx12_bytes" "rx" "12" 12 (by decide) (by decide)
    (by decide)).1 "rx_bytes").2
    ⟨"rx_bytes", by decide, by unfold sourceOf; decide⟩

/-! ## Requests of descriptors and construction of samples -/

theorem send_requested (st : Scrape) (hp : st.panicked = false) (name help : String)
    (labels : List String) (valType : ValueType) (value : Nat) (labelValues : List String) :
    (send st name help labels valType value labelValues).requested =
      st.requested ++ [(name, help, labels)] := by
  unfold send
  rw [hp]
  simp only [Bool.false_eq_true, if_false]
  split <;> rfl

theorem sampleOf_wellFormed (name help : String) (labels : List String)
    (hr : (name, help, labels) ∈ metricSchema) (valType : ValueType) (value : Nat)
    (labelValues : List String) (hlen : labelValues.length = labels.length) :
    (sampleOf name help labels valType value labelValues).desc.err = false ∧
      (sampleOf name help labels valType value labelValues).labelValues.length =
        (sampleOf name help labels valType value labelValues).desc.variableLabels.length :=
  ⟨metricSchema_desc _ hr, hlen⟩

theorem getOrCreateMetricDesc_keeps (metrics : List (String × Desc)) (name help : String)
    (labels : List String) :
    (∃ desc, mapGet (getOrCreateMetricDesc metrics name help labels).2 name = some desc) ∧
      ∀ other desc, mapGet metrics other = some desc →
        mapGet (getOrCreateMetricDesc metrics name help labels).2 other = some desc := by
  unfold getOrCreateMetricDesc
  cases hget : mapGet metrics name with
  | some d => exact ⟨⟨d, hget⟩, fun _ _ h => h⟩
  | none =>
    refine ⟨⟨NewDesc (BuildFQName "nic" "" name) help labels, ?_⟩, ?_⟩
    · simp only [mapGet_mapSet, if_true]
    · intro other desc h
      have hne : other ≠ name := by
        rintro rfl
        rw [hget] at h
        exact absurd h (by simp)
      simp only [mapGet_mapSet, hne, if_false]
      exact h

theorem send_metrics (st : Scrape) (hp : st.panicked = false) (name help : String)
    (labels : List String) (valType : ValueType) (value : Nat) (labelValues : List String) :
    (send st name help labels valType value labelValues).metrics =
      (getOrCreateMetricDesc st.metrics name help labels).2 := by
  unfold send
  rw [hp]
  simp only [Bool.false_eq_true, if_false]
  split <;> rfl

theorem send_sound (st : Scrape) (hst : st.Sound) (name help : String) (labels : List String)
    (hr : (name, help, labels) ∈ metricSchema) (valType : ValueType) (value : Nat)
    (labelValues : List String) (hlen : labelValues.length = labels.length) :
    (send st name help labels valType value labelValues).Sound := by
  obtain ⟨hgood, hreq, hch⟩ := hst
  obtain ⟨hg, hc⟩ := send_schema st hgood name help labels hr valType value labelValues hlen
  refine ⟨hg, ?_, ?_⟩
  · rw [send_requested st hgood.2, send_metrics st hgood.2]
    obtain ⟨hnew, hold⟩ := getOrCreateMetricDesc_keeps st.metrics name help labels
    intro req hmem
    rcases List.mem_append.1 hmem with h | h
    · obtain ⟨hs, desc, hd⟩ := hreq req h
      exact ⟨hs, desc, hold req.1 desc hd⟩
    · rw [List.mem_singleton.1 h]
      exact ⟨hr, hnew⟩
  · rw [hc]
    intro m hmem
    rcases List.mem_append.1 hmem with h | h
    · exact hch m h
    · rw [List.mem_singleton.1 h]
      exact sampleOf_wellFormed name help labels hr valType value labelValues hlen

theorem sendLoop_sound (rename : String → String) (help : String) (labels : List String)
    (valType : ValueType) (labelValues : List String) (hlen : labelValues.length = labels.length) :
    ∀ (entries : List (String × Nat)) (st : Scrape), st.Sound →
      (∀ e ∈ entries, (rename e.1, help, labels) ∈ metricSchema) →
      (entries.foldl (fun st e => send st (rename e.1) help labels valType e.2 labelValues)
          st).Sound
  | [], _, hst, _ => hst
  | e :: rest, st, hst, hmem => by
    simp only [List.foldl_cons]
    exact sendLoop_sound rename help labels valType labelValues hlen rest _
      (send_sound st hst (rename e.1) help labels (hmem e (List.mem_cons_self _ _)) valType e.2
        labelValues hlen)
      (fun x hx => hmem x (List.mem_cons_of_mem _ hx))

theorem exportQueues_sound (ifaceName driverType : String) :
    ∀ (queues : List QueueStats) (order : Nat → RangeOrder (String × Nat)) (st : Scrape),
      (∀ i, (order i).Valid) → st.Sound →
      (exportQueues order ["interface", "driver"] [ifaceName, driverType] queues st).Sound
  | [], _, _, _, hst => hst
  | qStats :: rest, order, st, ho, hst => by
    have hmem : ∀ e ∈ order 0
        [ ("queue_rx_packets", qStats.RxPackets),
          ("queue_rx_bytes", qStats.RxBytes),
          ("queue_rx_drops", qStats.RxDrops),
          ("queue_tx_packets", qStats.TxPackets),
          ("queue_tx_bytes", qStats.TxBytes),
          ("queue_tx_drops", qStats.TxDrops) ],
        (id e.1, "Per-queue network interface statistic", ["interface", "driver", "queue"])
          ∈ metricSchema := by
      intro e he
      exact queueNames_schema e.1 (List.mem_map_of_mem Prod.fst ((ho 0 _).subset he))
    have hs₁ := sendLoop_sound id "Per-queue network interface statistic"
      ["interface", "driver", "queue"] ValueType.CounterValue
      ([ifaceName, driverType] ++ [Itoa qStats.QueueIndex]) rfl _ st hst hmem
    exact exportQueues_sound ifaceName driverType rest (fun i => order (i + 1)) _
      (fun i => ho (i + 1)) hs₁

theorem exportInterface_sound (s : CollectSched) (hs : s.Valid) (st : Scrape) (hst : st.Sound)
    (ifaceName : String) (nicInfo : NICInfo) (ethtoolStats : List (String × Nat)) :
    (exportInterface s st ifaceName nicInfo ethtoolStats).Sound := by
  have hbasic : ∀ e ∈ s.basicMetrics
      [ ("rx_packets", (ProcessDriverStats s.driver nicInfo.DriverType ethtoolStats).Basic.RxPackets),
        ("rx_bytes", (ProcessDriverStats s.driver nicInfo.DriverType ethtoolStats).Basic.RxBytes),
        ("rx_drops", (ProcessDriverStats s.driver nicInfo.DriverType ethtoolStats).Basic.RxDrops),
        ("tx_packets", (ProcessDriverStats s.driver nicInfo.DriverType ethtoolStats).Basic.TxPackets),
        ("tx_bytes", (ProcessDriverStats s.driver nicInfo.DriverType ethtoolStats).Basic.TxBytes),
        ("tx_drops", (ProcessDriverStats s.driver nicInfo.DriverType ethtoolStats).Basic.TxDrops) ],
      (id e.1, "Basic network interface statistic", ["interface", "driver"]) ∈ metricSchema := by
    intro e he
    exact basicNames_schema e.1 (List.mem_map_of_mem Prod.fst ((hs.basicMetrics _).subset he))
  have hs₁ := sendLoop_sound id "Basic network interface statistic"
    ["interface", "driver"] ValueType.CounterValue [ifaceName, nicInfo.DriverType] rfl _ st hst
    hbasic
  have hs₂ := exportQueues_sound ifaceName nicInfo.DriverType
    (ProcessDriverStats s.driver nicInfo.DriverType ethtoolStats).PerQueue s.queueMetrics _
    hs.queueMetrics hs₁
  have hinfo : ("info", "Network interface information", ["interface", "driver", "version"])
      ∈ metricSchema := by decide
  cases hphy : (ProcessDriverStats s.driver nicInfo.DriverType ethtoolStats).Physical with
  | none =>
    simp only [exportInterface, hphy]
    exact send_sound _ hs₂ "info" "Network interface information"
      ["interface", "driver", "version"] hinfo ValueType.GaugeValue 1
      [ifaceName, nicInfo.DriverType, nicInfo.Version] rfl
  | some physical =>
    simp only [exportInterface, hphy]
    have hphyNames : ∀ e ∈ s.phyStats
        [ ("rx_bytes", physical.RxBytes),
          ("tx_bytes", physical.TxBytes),
          ("rx_packets", physical.RxPackets),
          ("tx_packets", physical.TxPackets),
          ("rx_discards", physical.RxDiscarded),
          ("tx_discards", physical.TxDiscarded),
          ("rx_pause_ctrl", physical.RxPauseCtrl),
          ("tx_pause_ctrl", physical.TxPauseCtrl) ],
        ((fun x => "phy_" ++ x) e.1, "PHY drops for network interface", ["interface", "driver"])
          ∈ metricSchema := by
      intro e he
      exact phyNames_schema e.1 (List.mem_map_of_mem Prod.fst ((hs.phyStats _).subset he))
    have hs₃ := sendLoop_sound (fun x => "phy_" ++ x) "PHY drops for network interface"
      ["interface", "driver"] ValueType.CounterValue [ifaceName, nicInfo.DriverType] rfl _ _ hs₂
      hphyNames
    exact send_sound _ hs₃ "info" "Network interface information"
      ["interface", "driver", "version"] hinfo ValueType.GaugeValue 1
      [ifaceName, nicInfo.DriverType, nicInfo.Version] rfl

theorem collectInterface_sound (s : CollectSched) (hs : s.Valid) (env : Env) (st : Scrape)
    (hst : st.Sound) (ifaceName : String) : (collectInterface s env st ifaceName).Sound := by
  unfold collectInterface
  rw [hst.1.2]
  simp only [Bool.false_eq_true, if_false]
  cases env.LinkByName ifaceName with
  | error err => exact hst
  | ok linkName =>
    simp only
    cases GetNICInfo env.DriverInfo linkName with
    | error err => exact hst
    | ok nicInfo =>
      simp only
      cases getEthtoolStats env ifaceName with
      | error err => exact hst
      | ok ethtoolStats => exact exportInterface_sound s hs st hst ifaceName nicInfo ethtoolStats

theorem collectLoop_sound (env : Env) :
    ∀ (interfaces : List String) (s : Nat → CollectSched), (∀ i, (s i).Valid) →
      ∀ (st : Scrape), st.Sound → (collectLoop s env interfaces st).Sound
  | [], _, _, _, hst => hst
  | ifaceName :: rest, s, hs, st, hst =>
    collectLoop_sound env rest (fun i => s (i + 1)) (fun i => hs (i + 1)) _
      (collectInterface_sound (s 0) (hs 0) env st hst ifaceName)

theorem collect_sound (s : Nat → CollectSched) (hs : ∀ i, (s i).Valid) (env : Env)
    (c : EthtoolCollector) (hc : Reachable c) : (Collect s env c).Sound := by
  have hinit : (Scrape.mk c.metrics [] false []).Sound :=
    ⟨⟨reachable_cacheOK c hc, rfl⟩, fun _ h => by simp at h, fun _ h => by simp at h⟩
  exact collectLoop_sound env c.interfaces s hs _ hinit

theorem metricSchema_family : ∀ r ∈ metricSchema, inFamily r := by
  unfold inFamily
  decide

/-- A descriptor cached under the name of a request of the schema carries the label names
of that request. -/
theorem cached_labels (metrics : List (String × Desc)) (h : CacheOK metrics)
    (req : String × String × List String) (hr : req ∈ metricSchema) (desc : Desc)
    (hget : mapGet metrics req.1 = some desc) : desc.variableLabels = req.2.2 := by
  obtain ⟨r, hmem, heq⟩ := h _ (mem_of_mapGet_eq_some metrics req.1 desc hget)
  simp only [Prod.mk.injEq] at heq
  have hrr : r = req := metricSchema_names r hmem req hr heq.1.symm
  rw [heq.2, hrr]
  rfl

/-- C14: on every collector state the program reaches, in each call of `Collect` (any
interfaces, any outcome of the collaborators, any visiting order of the maps), every
request to `getOrCreateMetricDesc` asks for one of the six basic names or the eight `phy_`
names with the labels interface, driver, for one of the six `queue_` names with the labels
interface, driver, queue, or for `info` with the labels interface, driver, version; the
four families of names are pairwise disjoint; two requests for the same name, in the same
call or in calls on different reachable states, carry the same label list; the name of
every request is cached after the call, and a descriptor cached under it before or after
the call carries the requested label names; `MustNewConstMetric` does not panic, and every
sample sent has a descriptor without error and as many label values as its descriptor has
label names. -/
theorem C14_label_schema_fixed_per_name (s s' : Nat → CollectSched) (hs : ∀ i, (s i).Valid)
    (hs' : ∀ i, (s' i).Valid) (env env' : Env) (c c' : EthtoolCollector) (hc : Reachable c)
    (hc' : Reachable c') :
    (∀ req ∈ (Collect s env c).requested, inFamily req) ∧
    ((∀ n ∈ basicMetricNames, n ∉ phyMetricNames ∧ n ∉ queueMetricNames ∧ n ≠ "info") ∧
      (∀ n ∈ phyMetricNames, n ∉ queueMetricNames ∧ n ≠ "info") ∧
      (∀ n ∈ queueMetricNames, n ≠ "info")) ∧
    (∀ req ∈ (Collect s env c).requested, ∀ req' ∈ (Collect s' env' c').requested,
      req.1 = req'.1 → req.2.2 = req'.2.2) ∧
    (∀ req ∈ (Collect s env c).requested,
      (∃ desc, mapGet (Collect s env c).metrics req.1 = some desc) ∧
      ∀ desc, mapGet c.metrics req.1 = some desc ∨
          mapGet (Collect s env c).metrics req.1 = some desc →
        desc.variableLabels = req.2.2) ∧
    (Collect s env c).panicked = false ∧
    (∀ m ∈ (Collect s env c).ch,
      m.desc.err = false ∧ m.labelValues.length = m.desc.variableLabels.length) := by
  obtain ⟨hgood, hreq, hch⟩ := collect_sound s hs env c hc
  obtain ⟨_, hreq', _⟩ := collect_sound s' hs' env' c' hc'
  refine ⟨?_, by decide, ?_, ?_, hgood.2, hch⟩
  · intro req hmem
    exact metricSchema_family req (hreq req hmem).1
  · intro req hmem req' hmem' hname
    rw [metricSchema_names req (hreq req hmem).1 req' (hreq' req' hmem').1 hname]
  · intro req hmem
    refine ⟨(hreq req hmem).2, ?_⟩
    rintro desc (hget | hget)
    · exact cached_labels c.metrics (reachable_cacheOK c hc) req (hreq req hmem).1 desc hget
    · exact cached_labels _ hgood.1 req (hreq req hmem).1 desc hget

/-- Witness of C14: a second scrape, in the reversed visiting order, on the collector state a
first scrape of `eth0, eth1, nope, eth2` leaves does not panic. -/
theorem C14_label_schema_fixed_per_name_witness :
    (Collect (fun _ => CollectSched.reversed) sampleEnv
      { interfaces := ["eth0", "eth1", "nope", "eth2"],
        metrics := (Collect (fun _ => CollectSched.listed) sampleEnv
          { interfaces := ["eth0", "eth1", "nope", "eth2"], metrics := [] }).metrics }).panicked
      = false :=
  (C14_label_schema_fixed_per_name (fun _ => CollectSched.reversed)
    (fun _ => CollectSched.listed) (fun _ => collectSched_reversed_valid)
    (fun _ => collectSched_listed_valid) sampleEnv sampleEnv _ _
    (Reachable.collect { interfaces := ["eth0", "eth1", "nope", "eth2"], metrics := [] }
      (fun _ => CollectSched.listed) sampleEnv (Reachable.new _)
      (fun _ => collectSched_listed_valid))
    (Reachable.new ["eth0"])).2.2.2.2.1

end EthtoolExporter
